import Mathlib

/-!
Shallow embedding of `aiohomekit/model/__init__.py` (classes `Services`,
`Accessory`, `Accessories`) together with the collaborating pieces the
module imports (`Service`, `Characteristic`, the type registries and the
exception taxonomy), which are not part of the visible sources and are
therefore modelled from the specification document.

Python exceptions are modelled with `Except PyErr`; Python `None` and
missing dictionary keys are modelled with `Option`; Python lists and
(insertion-ordered) dicts are modelled with Lean lists.  Object identity
of a `Service` inside one accessory is modelled by its index in the
owning accessory's service list.
-/

/-- Error kinds.  `keyError` and `stopIteration` are Python built-ins that
the visible code can raise (`data["aid"]`, bare `next(...)`).  The
remaining constructors are Modelled from the spec: the error taxonomy of
the design document (UnknownTypeError, DuplicateCharacteristicError,
MissingCharacteristicError-style lookup failure, NotFoundError,
MalformedRecordError); the last two are never produced by the embedded
code, they exist so that theorems can compare the code's actual failure
against the failure the spec names. -/
inductive PyErr
  | keyError
  | stopIteration
  | unknownType
  | duplicateCharacteristic
  | missingCharacteristic
  | notFoundError
  | malformedRecord
deriving DecidableEq, Repr

/-- Characteristic / filter values (Python scalars). -/
inductive PyVal
  | ofBool (b : Bool)
  | ofInt (n : Int)
  | ofStr (s : String)
deriving DecidableEq, Repr

/-- Python `d[k]` on our `Option`-modelled dictionary fields: a missing
key raises `KeyError`. -/
def keyGet {α : Type} : Option α → Except PyErr α
  | some x => .ok x
  | none => .error .keyError

/-- Python `next(it)` with no default on an (already materialised)
iterator: the first element, or `StopIteration` when exhausted. -/
def pyNext {α : Type} : List α → Except PyErr α
  | [] => .error .stopIteration
  | x :: _ => .ok x

/-- In-place update of one list element (Python mutates the object held at
that position; out-of-range indices never occur for live objects). -/
def listUpdate {α : Type} : List α → Nat → (α → α) → List α
  | [], _, _ => []
  | x :: xs, 0, f => f x :: xs
  | x :: xs, n + 1, f => x :: listUpdate xs n f

/-- Modelled from the spec: a `Characteristic` leaf entity — instance id,
type code, permissions, format, optional current value and the open set of
optional descriptive attributes (present iff set). -/
structure Characteristic where
  iid : Int
  type : String
  perms : List String
  format : String
  value : Option PyVal := none
  description : Option String := none
  minValue : Option PyVal := none
  maxValue : Option PyVal := none
  validValues : Option (List PyVal) := none
  unit : Option String := none
  minStep : Option PyVal := none
  maxLen : Option Int := none
deriving DecidableEq, Repr

/-- Modelled from the spec: a `Service` — instance id, type code, optional
display name, owned characteristics, and outgoing links.  A link stores
the identity of the target service, i.e. its index in the owning
accessory's service list (Python stores an object reference). -/
structure Service where
  iid : Int
  type : String
  name : Option String := none
  characteristics : List Characteristic := []
  linked : List Nat := []
deriving DecidableEq, Repr

/-- One accessory: `aid`, the private `_next_id` counter, and its ordered
service collection (class `Services` wraps exactly this list). -/
structure Accessory where
  aid : Int
  nextId : Int := 0
  services : List Service := []
deriving DecidableEq, Repr

/-- Serialized characteristic record: the nested key/value object of the
wire format.  Mandatory wire fields are still `Option` here because the
deserializer must be applicable to records with missing keys. -/
structure CharRecord where
  iid : Option Int := none
  type : Option String := none
  perms : Option (List String) := none
  format : Option String := none
  value : Option PyVal := none
  description : Option String := none
  minValue : Option PyVal := none
  maxValue : Option PyVal := none
  validValues : Option (List PyVal) := none
  unit : Option String := none
  minStep : Option PyVal := none
  maxLen : Option Int := none
deriving DecidableEq, Repr

/-- Serialized service record. -/
structure ServiceRecord where
  iid : Option Int := none
  type : Option String := none
  characteristics : Option (List CharRecord) := none
  linked : Option (List Int) := none
deriving DecidableEq, Repr

/-- Serialized accessory record. -/
structure AccessoryRecord where
  aid : Option Int := none
  services : Option (List ServiceRecord) := none
deriving DecidableEq, Repr

/-- Modelled from the spec: the external type registries, treated as
opaque, pure lookup tables — `resolve(name_or_uuid) -> canonical_uuid`
(`none` = unresolvable), default `{perms, format}` per characteristic
type, and the required-characteristics set per service type. -/
structure Registry where
  svcResolve : String → Option String
  charResolve : String → Option String
  charDefaults : String → List String × String
  requiredChars : String → List String

/-- Modelled from the spec: the recognised configuration bag of
`Service.add_char` — any option not supplied falls back to the registry
default (for perms/format) or stays unset. -/
structure CharOptions where
  perms : Option (List String) := none
  format : Option String := none
  description : Option String := none
  value : Option PyVal := none
  minValue : Option PyVal := none
  maxValue : Option PyVal := none
  validValues : Option (List PyVal) := none
  unit : Option String := none
  minStep : Option PyVal := none
  maxLen : Option Int := none

/-- Keyword arguments of `Services.filter` / `Services.first`.  `none`
stands for the Python default `None`; a present `parentLinked` is the
`linked` list of the `parent_service` argument (a Service object is always
truthy), `childIdx` is the identity of the `child_service` argument. -/
structure FilterArgs where
  serviceType : Option String := none
  characteristics : Option (List (String × PyVal)) := none
  parentLinked : Option (List Nat) := none
  childIdx : Option Nat := none

/-- Python truthiness of the `service_type` argument (`None` and `""` are
falsy). -/
def optStrTruthy : Option String → Bool
  | none => false
  | some s => !s.isEmpty

/-- Python truthiness of the `characteristics` argument (`None` and the
empty dict are falsy). -/
def optDictTruthy : Option (List (String × PyVal)) → Bool
  | none => false
  | some l => !l.isEmpty

/-- The characteristic entries that actually take part in filtering: the
mapping's items when the argument is truthy, nothing otherwise. -/
def effectiveChars (args : FilterArgs) : List (String × PyVal) :=
  if optDictTruthy args.characteristics then args.characteristics.getD [] else []

/-- Line 60 of the source: `service_type = ServicesTypes.get_uuid(service_type)`
is executed once, eagerly, when the argument is truthy; an unresolvable
name raises. -/
def resolveServiceType (R : Registry) (st : Option String) : Except PyErr (Option String) :=
  if optStrTruthy st then
    match R.svcResolve (st.getD "") with
    | some u => .ok (some u)
    | none => .error .keyError
  else
    .ok none

/-- Modelled from the spec: `Service.__getitem__` — characteristic
lookup-by-type on a service, resolving the key through the registry; the
lookup fails when the name is unresolvable or the service lacks a
characteristic of that type. -/
def Service.getItem (R : Registry) (s : Service) (key : String) : Except PyErr Characteristic :=
  match R.charResolve key with
  | none => .error .keyError
  | some u =>
    match s.characteristics.find? (fun c => c.type == u) with
    | some c => .ok c
    | none => .error .missingCharacteristic

/-- The `service.type == service_type` predicate (no-op when the
`service_type` argument was falsy). -/
def typePass : Option String → Service → Bool
  | none, _ => true
  | some t, s => s.type == t

/-- The `service in parent_service.linked` predicate (identity = index). -/
def parentPass : Option (List Nat) → Nat → Bool
  | none, _ => true
  | some l, i => l.contains i

/-- The `child_service in service.linked` predicate. -/
def childPass : Option Nat → Service → Bool
  | none, _ => true
  | some j, s => s.linked.contains j

/-- The stacked characteristic predicates of source lines 63-67.  The
lambdas close over the loop variables `characteristic`/`value` by
reference, and the lazy `filter` chain is consumed only after the loop
has finished, so at consumption time every stacked layer tests the
mapping's LAST entry.  Layers beyond the innermost repeat the identical
(pure) test, so the whole stack behaves observationally as a single test
of the last entry: its lookup failure escapes, its value comparison
decides the match, and entries before the last are never consulted. -/
def matchChars (R : Registry) (s : Service) (chars : List (String × PyVal)) : Except PyErr Bool :=
  match chars.getLast? with
  | none => .ok true
  | some (k, v) =>
    match Service.getItem R s k with
    | .error e => .error e
    | .ok c => .ok (c.value == some v)

/-- Whether one service (at index `idx`) passes the whole predicate chain
of `Services.filter`, evaluated in the source's composition order:
service type, then the characteristics test (see `matchChars`), then
parent, then child. -/
def matchService (R : Registry) (rt : Option String) (chars : List (String × PyVal))
    (pl : Option (List Nat)) (ci : Option Nat) (idx : Nat) (s : Service) : Except PyErr Bool :=
  if typePass rt s then
    match matchChars R s chars with
    | .error e => .error e
    | .ok false => .ok false
    | .ok true =>
      if parentPass pl idx then
        (if childPass ci s then .ok true else .ok false)
      else .ok false
  else .ok false

/-- Full consumption of the filter iterator chain: services are examined
in insertion order and the first escaping exception aborts the whole
consumption. -/
def filterLoop (R : Registry) (rt : Option String) (chars : List (String × PyVal))
    (pl : Option (List Nat)) (ci : Option Nat) (idx : Nat) : List Service → Except PyErr (List Service)
  | [] => .ok []
  | s :: rest =>
    match matchService R rt chars pl ci idx s with
    | .error e => .error e
    | .ok b =>
      match filterLoop R rt chars pl ci (idx + 1) rest with
      | .error e => .error e
      | .ok tail => .ok (if b then s :: tail else tail)

/-- `Services.filter` (source lines 49-75), observed through full
consumption of the returned iterator. -/
def Services.filter (R : Registry) (args : FilterArgs) (svcs : List Service) : Except PyErr (List Service) :=
  match resolveServiceType R args.serviceType with
  | .error e => .error e
  | .ok rt => filterLoop R rt (effectiveChars args) args.parentLinked args.childIdx 0 svcs

/-- Lazy consumption for `Services.first`: stop at the first match, so a
later exception is never reached; exhaustion (`StopIteration`) is caught
and becomes `None`. -/
def firstLoop (R : Registry) (rt : Option String) (chars : List (String × PyVal))
    (pl : Option (List Nat)) (ci : Option Nat) (idx : Nat) : List Service → Except PyErr (Option Service)
  | [] => .ok none
  | s :: rest =>
    match matchService R rt chars pl ci idx s with
    | .error e => .error e
    | .ok true => .ok (some s)
    | .ok false => firstLoop R rt chars pl ci (idx + 1) rest

/-- `Services.first` (source lines 77-95): `next` on the filter chain with
only `StopIteration` caught. -/
def Services.first (R : Registry) (args : FilterArgs) (svcs : List Service) : Except PyErr (Option Service) :=
  match resolveServiceType R args.serviceType with
  | .error e => .error e
  | .ok rt => firstLoop R rt (effectiveChars args) args.parentLinked args.childIdx 0 svcs

/-- `Services.iid` (source lines 46-47):
`next(filter(lambda service: service.iid == iid, self._services))`. -/
def Services.iid (svcs : List Service) (i : Int) : Except PyErr Service :=
  pyNext (svcs.filter (fun s => s.iid == i))

/-- Identity-tracking variant of `Services.iid` used by the deserializer's
link pass: the index of the first service carrying the identifier. -/
def Services.iidIdx (svcs : List Service) (i : Int) : Except PyErr Nat :=
  pyNext ((svcs.enum.filter (fun p => p.2.iid == i)).map (fun p => p.1))

/-- `Service.add_linked_service` (modelled from the spec: append a
non-owning reference to the target service).  `i` is the identity of the
source service, `j` of the target. -/
def Accessory.add_linked_service (a : Accessory) (i j : Nat) : Accessory :=
  { a with services := listUpdate a.services i (fun s => { s with linked := s.linked ++ [j] }) }

/-- Inner loop of `Service.__init__` when `add_required` is set.  Modelled
from the spec: one characteristic per required type, with registry
defaults, identifiers drawn from the owning accessory's counter. -/
def requiredFold (R : Registry) : Accessory → Service → List String → Except PyErr (Accessory × Service)
  | a, s, [] => .ok (a, s)
  | a, s, ct :: rest =>
    match R.charResolve ct with
    | none => .error .unknownType
    | some u =>
      if s.characteristics.any (fun c => c.type == u) then .error .duplicateCharacteristic
      else
        let n := a.nextId + 1
        let c : Characteristic :=
          { iid := n, type := u, perms := (R.charDefaults u).1, format := (R.charDefaults u).2 }
        requiredFold R { a with nextId := n } { s with characteristics := s.characteristics ++ [c] } rest

/-- `Accessory.add_service` (source lines 177-182) together with the
spec-modelled `Service.__init__`: resolve the type, assign the next
accessory-scoped identifier, optionally provision required
characteristics, then append the service.  Returns the updated accessory
and the identity (index) of the new service. -/
def Accessory.add_service (R : Registry) (a : Accessory) (serviceType : String)
    (name : Option String := none) (addRequired : Bool := false) : Except PyErr (Accessory × Nat) :=
  match R.svcResolve serviceType with
  | none => .error .unknownType
  | some t =>
    let n := a.nextId + 1
    let s0 : Service := { iid := n, type := t, name := name }
    match (if addRequired then requiredFold R { a with nextId := n } s0 (R.requiredChars t)
           else .ok ({ a with nextId := n }, s0)) with
    | .error e => .error e
    | .ok (a1, s) => .ok ({ a1 with services := a1.services ++ [s] }, a1.services.length)

/-- Modelled from the spec: `Service.add_char` — resolve the type (failing
with `UnknownTypeError` when unresolvable), refuse a duplicate
characteristic type on the same service, assign the next accessory-scoped
identifier, fill unsupplied perms/format from the registry defaults, and
append.  Addressed through the owning accessory (`si` = the service's
identity) because the identifier counter lives there.  Returns the
updated accessory and the index of the new characteristic. -/
def Accessory.add_char (R : Registry) (a : Accessory) (si : Nat) (charType : String)
    (opts : CharOptions) : Except PyErr (Accessory × Nat) :=
  match R.charResolve charType with
  | none => .error .unknownType
  | some t =>
    match a.services.get? si with
    | none => .error .keyError
    | some s =>
      if s.characteristics.any (fun c => c.type == t) then .error .duplicateCharacteristic
      else
        let n := a.nextId + 1
        let c : Characteristic :=
          { iid := n, type := t,
            perms := opts.perms.getD (R.charDefaults t).1,
            format := opts.format.getD (R.charDefaults t).2,
            value := opts.value, description := opts.description,
            minValue := opts.minValue, maxValue := opts.maxValue,
            validValues := opts.validValues, unit := opts.unit,
            minStep := opts.minStep, maxLen := opts.maxLen }
        .ok ({ a with
                 nextId := n,
                 services := listUpdate a.services si
                   (fun s => { s with characteristics := s.characteristics ++ [c] }) },
             s.characteristics.length)

/-- `service.iid = service_data["iid"]` (source line 137). -/
def Accessory.setServiceIid (a : Accessory) (si : Nat) (iid : Int) : Accessory :=
  { a with services := listUpdate a.services si (fun s => { s with iid := iid }) }

/-- `char.iid = char_data["iid"]` (source line 163). -/
def Accessory.setCharIid (a : Accessory) (si ci : Nat) (iid : Int) : Accessory :=
  { a with services := listUpdate a.services si (fun s =>
      { s with characteristics := listUpdate s.characteristics ci (fun c =>
          { c with iid := iid }) }) }

/-- Inner loop of the deserializer's first pass (source lines 139-163):
`char_data["perms"]` and `char_data["format"]` are read while building the
kwargs, then `char_data["type"]` at the `add_char` call, and
`char_data["iid"]` only after the characteristic was created. -/
def buildChars (R : Registry) (si : Nat) : Accessory → List CharRecord → Except PyErr Accessory
  | a, [] => .ok a
  | a, cd :: rest =>
    match keyGet cd.perms with
    | .error e => .error e
    | .ok perms =>
      match keyGet cd.format with
      | .error e => .error e
      | .ok format =>
        match keyGet cd.type with
        | .error e => .error e
        | .ok ct =>
          match Accessory.add_char R a si ct
              { perms := some perms, format := some format,
                description := cd.description, value := cd.value,
                minValue := cd.minValue, maxValue := cd.maxValue,
                validValues := cd.validValues, unit := cd.unit,
                minStep := cd.minStep, maxLen := cd.maxLen } with
          | .error e => .error e
          | .ok (a1, ci) =>
            match keyGet cd.iid with
            | .error e => .error e
            | .ok ciid => buildChars R si (a1.setCharIid si ci ciid) rest

/-- Outer loop of the deserializer's first pass (source lines 135-163). -/
def buildServices (R : Registry) : Accessory → List ServiceRecord → Except PyErr Accessory
  | a, [] => .ok a
  | a, sd :: rest =>
    match keyGet sd.type with
    | .error e => .error e
    | .ok st =>
      match Accessory.add_service R a st none false with
      | .error e => .error e
      | .ok (a1, si) =>
        match keyGet sd.iid with
        | .error e => .error e
        | .ok siid =>
          match keyGet sd.characteristics with
          | .error e => .error e
          | .ok cds =>
            match buildChars R si (a1.setServiceIid si siid) cds with
            | .error e => .error e
            | .ok a2 => buildServices R a2 rest

/-- First pass of `Accessory.create_from_dict`: a fresh accessory (the
globally generated `aid` is immediately overwritten by `data["aid"]`, so
the generator is irrelevant here and the counter starts at zero), then the
service/characteristic construction loops. -/
def firstPass (R : Registry) (data : AccessoryRecord) : Except PyErr Accessory :=
  match keyGet data.aid with
  | .error e => .error e
  | .ok aid =>
    match keyGet data.services with
    | .error e => .error e
    | .ok sds => buildServices R { aid := aid } sds

/-- Body of the link pass for one service record (source lines 166-169):
for each entry of `service_data.get("linked", [])`, look up the source
service by `service_data["iid"]`, then the target by the linked id, and
append the link; each lookup is a bare `next(...)`. -/
def linkLoop (a : Accessory) (siid : Option Int) : List Int → Except PyErr Accessory
  | [] => .ok a
  | x :: rest =>
    match keyGet siid with
    | .error e => .error e
    | .ok y =>
      match Services.iidIdx a.services y with
      | .error e => .error e
      | .ok srcI =>
        match Services.iidIdx a.services x with
        | .error e => .error e
        | .ok tgtI => linkLoop (a.add_linked_service srcI tgtI) siid rest

/-- Second pass of `Accessory.create_from_dict` (source lines 165-169). -/
def linkPass : Accessory → List ServiceRecord → Except PyErr Accessory
  | a, [] => .ok a
  | a, sd :: rest =>
    match linkLoop a sd.iid (sd.linked.getD []) with
    | .error e => .error e
    | .ok a1 => linkPass a1 rest

/-- `Accessory.create_from_dict` (source lines 130-171). -/
def Accessory.create_from_dict (R : Registry) (data : AccessoryRecord) : Except PyErr Accessory :=
  match firstPass R data with
  | .error e => .error e
  | .ok a =>
    match keyGet data.services with
    | .error e => .error e
    | .ok sds => linkPass a sds

/-- Modelled from the spec: serialization of one characteristic — the
mandatory fields plus every optional attribute that is set (present iff
set, no null placeholders). -/
def Characteristic.toRecord (c : Characteristic) : CharRecord :=
  { iid := some c.iid, type := some c.type, perms := some c.perms, format := some c.format,
    value := c.value, description := c.description, minValue := c.minValue,
    maxValue := c.maxValue, validValues := c.validValues, unit := c.unit,
    minStep := c.minStep, maxLen := c.maxLen }

/-- Modelled from the spec: serialization of one service —
`{iid, type, characteristics, linked}` where `linked` holds the `iid`s of
the services referenced by the link list (`all` is the owning accessory's
service list, needed to read an identity's current `iid`). -/
def Service.toRecord (all : List Service) (s : Service) : ServiceRecord :=
  { iid := some s.iid, type := some s.type,
    characteristics := some (s.characteristics.map Characteristic.toRecord),
    linked := some (s.linked.filterMap (fun i => (all.get? i).map (fun t => t.iid))) }

/-- `Accessory.to_accessory_and_service_list` (source lines 184-189). -/
def Accessory.to_accessory_and_service_list (a : Accessory) : AccessoryRecord :=
  { aid := some a.aid, services := some (a.services.map (Service.toRecord a.services)) }

/-- `Accessories.serialize` (source lines 217-221); an `Accessories`
collection is its ordered list of accessories. -/
def Accessories.serialize (cs : List Accessory) : List AccessoryRecord :=
  cs.map Accessory.to_accessory_and_service_list

/-- `Accessories.from_list` (source lines 207-212). -/
def Accessories.from_list (R : Registry) : List AccessoryRecord → Except PyErr (List Accessory)
  | [] => .ok []
  | r :: rest =>
    match Accessory.create_from_dict R r with
    | .error e => .error e
    | .ok a =>
      match Accessories.from_list R rest with
      | .error e => .error e
      | .ok as' => .ok (a :: as')

/-- One entry of the characteristics mapping, read the way the
specification words it: the service owns a characteristic of that type
and its current value equals the given value. -/
def ownsWithValue (R : Registry) (s : Service) (kv : String × PyVal) : Bool :=
  match Service.getItem R s kv.1 with
  | .ok c => c.value == some kv.2
  | .error _ => false

/-- What the characteristics mapping effectively tests on one service:
nothing when empty, otherwise ownership-with-value of the LAST entry
only — the entry the late-binding lambdas see at consumption time. -/
def lastEntryMatch (R : Registry) (s : Service) (chars : List (String × PyVal)) : Bool :=
  match chars.getLast? with
  | none => true
  | some kv => ownsWithValue R s kv

/-- The effective conjunction `Services.filter` computes: the service
type matches (when supplied), the characteristics mapping's last entry is
owned with the given value, and the parent/child link predicates hold. -/
def specMatch (R : Registry) (rt : Option String) (chars : List (String × PyVal))
    (pl : Option (List Nat)) (ci : Option Nat) (idx : Nat) (s : Service) : Bool :=
  typePass rt s && lastEntryMatch R s chars && parentPass pl idx && childPass ci s

/-- The sublist of services satisfying `specMatch`, in insertion order,
starting at index `k`. -/
def specFilterFrom (R : Registry) (rt : Option String) (chars : List (String × PyVal))
    (pl : Option (List Nat)) (ci : Option Nat) (k : Nat) : List Service → List Service
  | [] => []
  | s :: rest =>
    if specMatch R rt chars pl ci k s then s :: specFilterFrom R rt chars pl ci (k + 1) rest
    else specFilterFrom R rt chars pl ci (k + 1) rest

/-- The sublist of services satisfying `specMatch`, in insertion order. -/
def specFilter (R : Registry) (rt : Option String) (chars : List (String × PyVal))
    (pl : Option (List Nat)) (ci : Option Nat) (svcs : List Service) : List Service :=
  specFilterFrom R rt chars pl ci 0 svcs

instance {ε α : Type} [DecidableEq ε] [DecidableEq α] : DecidableEq (Except ε α)
  | .error e, .error f =>
    if h : e = f then .isTrue (congrArg Except.error h)
    else .isFalse (fun hh => h (Except.error.inj hh))
  | .ok a, .ok b =>
    if h : a = b then .isTrue (congrArg Except.ok h)
    else .isFalse (fun hh => h (Except.ok.inj hh))
  | .error _, .ok _ => .isFalse (fun hh => Except.noConfusion hh)
  | .ok _, .error _ => .isFalse (fun hh => Except.noConfusion hh)

/-! ### Concrete fixtures used by witnesses and counterexamples -/

/-- A concrete registry for witnesses: every name is its own canonical
uuid (so resolution is the identity and trivially idempotent). -/
def R0 : Registry :=
  { svcResolve := fun s => some s, charResolve := fun s => some s,
    charDefaults := fun _ => (["pr"], "string"), requiredChars := fun _ => [] }

/-- A characteristic of type `"c"` with current value `"x"`. -/
def cHit : Characteristic :=
  { iid := 3, type := "c", perms := ["pr"], format := "string", value := some (.ofStr "x") }

/-- A service owning no characteristics at all. -/
def sMiss : Service := { iid := 1, type := "T" }

/-- A service owning `cHit`. -/
def sHit : Service := { iid := 2, type := "T", characteristics := [cHit] }

/-- Characteristic of type `"d"` with value `"y"`. -/
def cDy : Characteristic :=
  { iid := 11, type := "d", perms := ["pr"], format := "string", value := some (.ofStr "y") }

/-- Characteristic of type `"d"` with value `"z"`. -/
def cDz : Characteristic :=
  { iid := 12, type := "d", perms := ["pr"], format := "string", value := some (.ofStr "z") }

/-- Characteristic of type `"c"` with value `"x"` (second copy, other id). -/
def cX : Characteristic :=
  { iid := 10, type := "c", perms := ["pr"], format := "string", value := some (.ofStr "x") }

/-- Owns `c = "x"` and `d = "y"`: satisfies both entries of the witness
mapping. -/
def sAB : Service := { iid := 1, type := "T", characteristics := [cX, cDy] }

/-- Owns `c = "x"` but `d = "z"`: fails the second entry. -/
def sBB : Service := { iid := 2, type := "T", characteristics := [cX, cDz] }

/-- Characteristic of type `"c"` with value `"z"`. -/
def cZ : Characteristic :=
  { iid := 13, type := "c", perms := ["pr"], format := "string", value := some (.ofStr "z") }

/-- Owns `c = "z"` and `d = "y"`: fails the first entry of the mapping
`{c: x, d: y}` but satisfies its last entry. -/
def sCB : Service := { iid := 5, type := "T", characteristics := [cZ, cDy] }

/-- Record whose single service carries stored iid 2: reloading it leaves
the accessory's private counter at 1. -/
def rec6 : AccessoryRecord :=
  { aid := some 1, services := some [{ iid := some 2, type := some "T", characteristics := some [] }] }

/-- The accessory `rec6` deserializes to. -/
def accReloaded : Accessory :=
  { aid := 1, nextId := 1, services := [{ iid := 2, type := "T" }] }

/-- `accReloaded` after one further `add_service` call: the fresh service
was assigned the already-stored identifier 2. -/
def accCollided : Accessory :=
  { aid := 1, nextId := 2, services := [{ iid := 2, type := "T" }, { iid := 2, type := "T" }] }

/-- Record whose only service lists a `linked` identifier (9) that no
service of the record carries. -/
def rec7 : AccessoryRecord :=
  { aid := some 1,
    services := some [{ iid := some 1, type := some "T", characteristics := some [], linked := some [9] }] }

/-- An accessories collection whose (single) accessory has two services
sharing the stored identifier 7, the second linking the first. -/
def Cbad : List Accessory :=
  [{ aid := 1, nextId := 2,
     services := [{ iid := 7, type := "T" }, { iid := 7, type := "T", linked := [0] }] }]

/-- A well-formed two-accessory collection (distinct iids, canonical
types, links both ways) for the round-trip witness. -/
def Cgood : List Accessory :=
  [{ aid := 5, nextId := 9,
     services := [{ iid := 1, type := "T", name := some "n", characteristics := [cHit], linked := [1] },
                  { iid := 4, type := "U", linked := [0, 0] }] },
   { aid := 6, services := [] }]

/-- Two-service accessory for the link-direction witness. -/
def aLink : Accessory :=
  { aid := 3, nextId := 2, services := [{ iid := 1, type := "T" }, { iid := 2, type := "U" }] }

/-! ### Helper lemmas about `listUpdate` -/

theorem listUpdate_length {α : Type} (l : List α) (i : Nat) (f : α → α) :
    (listUpdate l i f).length = l.length := by
  induction l generalizing i with
  | nil => rfl
  | cons x xs ih =>
    cases i with
    | zero => rfl
    | succ n => simpa [listUpdate] using ih n

theorem listUpdate_get?_self {α : Type} (l : List α) (i : Nat) (f : α → α) :
    (listUpdate l i f).get? i = (l.get? i).map f := by
  induction l generalizing i with
  | nil => cases i <;> rfl
  | cons x xs ih =>
    cases i with
    | zero => rfl
    | succ n => simpa [listUpdate] using ih n

theorem listUpdate_append_cons {α : Type} (l1 : List α) (x : α) (l2 : List α) (f : α → α) :
    listUpdate (l1 ++ x :: l2) l1.length f = l1 ++ f x :: l2 := by
  induction l1 with
  | nil => rfl
  | cons y ys ih => simpa [listUpdate] using ih

theorem listUpdate_listUpdate {α : Type} (l : List α) (i : Nat) (f g : α → α) :
    listUpdate (listUpdate l i f) i g = listUpdate l i (fun x => g (f x)) := by
  induction l generalizing i with
  | nil => rfl
  | cons x xs ih =>
    cases i with
    | zero => rfl
    | succ n => simpa [listUpdate] using ih n

theorem map_listUpdate {α β : Type} (l : List α) (i : Nat) (f : α → α) (g : α → β)
    (h : ∀ x, g (f x) = g x) : (listUpdate l i f).map g = l.map g := by
  induction l generalizing i with
  | nil => rfl
  | cons x xs ih =>
    cases i with
    | zero => simp [listUpdate, h]
    | succ n => simpa [listUpdate] using ih n

/-! ### Query-engine lemmas -/

theorem matchChars_ok (R : Registry) (s : Service) :
    ∀ (chars : List (String × PyVal)) (b : Bool),
      matchChars R s chars = .ok b → lastEntryMatch R s chars = b := by
  intro chars b h
  unfold matchChars at h
  unfold lastEntryMatch
  cases hl : chars.getLast? with
  | none =>
    simp only [hl] at h ⊢
    exact Except.ok.inj h
  | some kv =>
    obtain ⟨k, v⟩ := kv
    simp only [hl] at h ⊢
    cases hg : Service.getItem R s k with
    | error e => simp [hg] at h
    | ok c =>
      simp only [hg] at h
      simp only [ownsWithValue, hg]
      exact Except.ok.inj h

theorem matchService_ok (R : Registry) (rt : Option String) (chars : List (String × PyVal))
    (pl : Option (List Nat)) (ci : Option Nat) (idx : Nat) (s : Service) (b : Bool)
    (h : matchService R rt chars pl ci idx s = .ok b) :
    specMatch R rt chars pl ci idx s = b := by
  unfold matchService at h
  by_cases ht : typePass rt s
  · rw [if_pos ht] at h
    cases hm : matchChars R s chars with
    | error e => simp [hm] at h
    | ok bc =>
      simp only [hm] at h
      have hall := matchChars_ok R s chars bc hm
      cases bc with
      | false =>
        injection h with h
        simp [specMatch, hall, ← h]
      | true =>
        by_cases hp : parentPass pl idx
        · by_cases hc : childPass ci s
          · rw [if_pos hp, if_pos hc] at h
            injection h with h
            simp [specMatch, ht, hall, hp, hc, ← h]
          · rw [if_pos hp, if_neg hc] at h
            injection h with h
            simp [specMatch, hall, hc, ← h]
        · rw [if_neg hp] at h
          injection h with h
          simp [specMatch, hall, hp, ← h]
  · rw [if_neg ht] at h
    injection h with h
    simp [specMatch, ht, ← h]

theorem filterLoop_ok (R : Registry) (rt : Option String) (chars : List (String × PyVal))
    (pl : Option (List Nat)) (ci : Option Nat) :
    ∀ (svcs : List Service) (k : Nat) (l : List Service),
      filterLoop R rt chars pl ci k svcs = .ok l → l = specFilterFrom R rt chars pl ci k svcs := by
  intro svcs
  induction svcs with
  | nil =>
    intro k l h
    simp [filterLoop] at h
    simp [specFilterFrom, ← h]
  | cons s rest ih =>
    intro k l h
    simp only [filterLoop] at h
    cases hm : matchService R rt chars pl ci k s with
    | error e => simp [hm] at h
    | ok b =>
      simp only [hm] at h
      cases ht : filterLoop R rt chars pl ci (k + 1) rest with
      | error e => simp [ht] at h
      | ok tail =>
        simp only [ht] at h
        injection h with h
        have htail := ih (k + 1) tail ht
        have hs := matchService_ok R rt chars pl ci k s b hm
        cases b with
        | true => simp [specFilterFrom, hs, ← h, htail]
        | false => simp [specFilterFrom, hs, ← h, htail]

theorem firstLoop_of_filterLoop (R : Registry) (rt : Option String) (chars : List (String × PyVal))
    (pl : Option (List Nat)) (ci : Option Nat) :
    ∀ (svcs : List Service) (k : Nat) (l : List Service),
      filterLoop R rt chars pl ci k svcs = .ok l →
      firstLoop R rt chars pl ci k svcs = .ok l.head? := by
  intro svcs
  induction svcs with
  | nil =>
    intro k l h
    simp [filterLoop] at h
    simp [firstLoop, h]
  | cons s rest ih =>
    intro k l h
    simp only [filterLoop] at h
    cases hm : matchService R rt chars pl ci k s with
    | error e => simp [hm] at h
    | ok b =>
      simp only [hm] at h
      cases ht : filterLoop R rt chars pl ci (k + 1) rest with
      | error e => simp [ht] at h
      | ok tail =>
        simp only [ht] at h
        injection h with h
        cases b with
        | true => simp only [firstLoop, hm, ← h]; rfl
        | false =>
          simp only [firstLoop, hm, ← h]
          exact ih (k + 1) tail ht

theorem filterLoop_no_chars (R : Registry) (rt : Option String)
    (pl : Option (List Nat)) (ci : Option Nat) :
    ∀ (svcs : List Service) (k : Nat),
      filterLoop R rt [] pl ci k svcs = .ok (specFilterFrom R rt [] pl ci k svcs) := by
  intro svcs
  induction svcs with
  | nil => intro k; rfl
  | cons s rest ih =>
    intro k
    have hm : matchService R rt [] pl ci k s = .ok (specMatch R rt [] pl ci k s) := by
      unfold matchService matchChars specMatch
      by_cases ht : typePass rt s <;> by_cases hp : parentPass pl k <;>
        by_cases hc : childPass ci s <;> simp [ht, hp, hc, lastEntryMatch]
    simp only [filterLoop, hm, ih (k + 1)]
    by_cases hs : specMatch R rt [] pl ci k s <;> simp [specFilterFrom, hs]

theorem specFilterFrom_mem (R : Registry) (rt : Option String) (chars : List (String × PyVal))
    (pl : Option (List Nat)) (ci : Option Nat) :
    ∀ (svcs : List Service) (k idx : Nat) (s : Service),
      svcs.get? idx = some s → specMatch R rt chars pl ci (k + idx) s = true →
      s ∈ specFilterFrom R rt chars pl ci k svcs := by
  intro svcs
  induction svcs with
  | nil => intro k idx s h; simp at h
  | cons t rest ih =>
    intro k idx s hget hmatch
    cases idx with
    | zero =>
      have hts : t = s := by simpa using hget
      subst hts
      simp only [Nat.add_zero] at hmatch
      simp [specFilterFrom, hmatch]
    | succ n =>
      have harith : k + 1 + n = k + (n + 1) := by omega
      have hmem := ih (k + 1) n s (by simpa using hget) (by rw [harith]; exact hmatch)
      by_cases hm : specMatch R rt chars pl ci k t <;> simp [specFilterFrom, hm, hmem]

theorem filterLoop_missing_err (R : Registry) (chars : List (String × PyVal)) (k : String)
    (v : PyVal) (hlast : chars.getLast? = some (k, v)) :
    ∀ (svcs : List Service) (n : Nat),
      (∃ s ∈ svcs, ∃ e, Service.getItem R s k = .error e) →
      ∃ e, filterLoop R none chars none none n svcs = .error e := by
  intro svcs
  induction svcs with
  | nil => intro n h; simp at h
  | cons t rest ih =>
    intro n h
    rcases h with ⟨s, hmem, e, he⟩
    rcases List.mem_cons.mp hmem with rfl | hmem'
    · exact ⟨e, by simp [filterLoop, matchService, typePass, matchChars, hlast, he]⟩
    · cases hg : Service.getItem R t k with
      | error e' =>
        exact ⟨e', by simp [filterLoop, matchService, typePass, matchChars, hlast, hg]⟩
      | ok c =>
        rcases ih (n + 1) ⟨s, hmem', e, he⟩ with ⟨e2, he2⟩
        refine ⟨e2, ?_⟩
        simp only [filterLoop, matchService, matchChars, hlast, hg, typePass]
        by_cases hv : c.value == some v <;>
          simp [hv, he2, parentPass, childPass]

/-- A mapping with a known last entry filters exactly as the singleton
mapping of that entry alone (earlier entries are never consulted). -/
theorem matchService_last_entry (R : Registry) (rt : Option String)
    (chars : List (String × PyVal)) (k : String) (v : PyVal)
    (hlast : chars.getLast? = some (k, v)) (pl : Option (List Nat)) (ci : Option Nat)
    (idx : Nat) (s : Service) :
    matchService R rt chars pl ci idx s = matchService R rt [(k, v)] pl ci idx s := by
  unfold matchService matchChars
  rw [hlast]
  rfl

theorem filterLoop_last_entry (R : Registry) (rt : Option String)
    (chars : List (String × PyVal)) (k : String) (v : PyVal)
    (hlast : chars.getLast? = some (k, v)) (pl : Option (List Nat)) (ci : Option Nat) :
    ∀ (svcs : List Service) (n : Nat),
      filterLoop R rt chars pl ci n svcs = filterLoop R rt [(k, v)] pl ci n svcs := by
  intro svcs
  induction svcs with
  | nil => intro n; rfl
  | cons s rest ih =>
    intro n
    simp only [filterLoop, matchService_last_entry R rt chars k v hlast pl ci n s, ih (n + 1)]

theorem firstLoop_last_entry (R : Registry) (rt : Option String)
    (chars : List (String × PyVal)) (k : String) (v : PyVal)
    (hlast : chars.getLast? = some (k, v)) (pl : Option (List Nat)) (ci : Option Nat) :
    ∀ (svcs : List Service) (n : Nat),
      firstLoop R rt chars pl ci n svcs = firstLoop R rt [(k, v)] pl ci n svcs := by
  intro svcs
  induction svcs with
  | nil => intro n; rfl
  | cons s rest ih =>
    intro n
    simp only [firstLoop, matchService_last_entry R rt chars k v hlast pl ci n s, ih (n + 1)]

/-! ### Claim C10 -/

/-- C10: calling `filter` or `first` with `characteristics` bound to an
empty mapping, or with `service_type` bound to the empty string, behaves
exactly as the same call without that argument — the falsy value filters
nothing. -/
theorem falsy_arguments_filter_nothing (R : Registry) (args : FilterArgs) (svcs : List Service) :
    Services.filter R { args with characteristics := some [] } svcs
        = Services.filter R { args with characteristics := none } svcs
      ∧ Services.first R { args with characteristics := some [] } svcs
        = Services.first R { args with characteristics := none } svcs
      ∧ Services.filter R { args with serviceType := some "" } svcs
        = Services.filter R { args with serviceType := none } svcs
      ∧ Services.first R { args with serviceType := some "" } svcs
        = Services.first R { args with serviceType := none } svcs := by
  refine ⟨?_, ?_, ?_, ?_⟩ <;>
    simp [Services.filter, Services.first, resolveServiceType, effectiveChars,
      optDictTruthy, optStrTruthy, show "".isEmpty = true from rfl]

/-! ### Claim C4 -/

/-- C4 (amended): `Services.iid` on an identifier no service carries fails
by raising `StopIteration` (the bare `next` on an exhausted `filter`), and
on a present identifier returns the first service carrying it. -/
theorem iid_lookup_contract (svcs : List Service) (i : Int) :
    ((∀ s ∈ svcs, s.iid ≠ i) → Services.iid svcs i = .error .stopIteration)
      ∧ (∀ s, svcs.find? (fun t => t.iid == i) = some s → Services.iid svcs i = .ok s) := by
  constructor
  · intro h
    have hnil : svcs.filter (fun s => s.iid == i) = [] := by
      rw [List.filter_eq_nil_iff]
      intro a ha
      simp [h a ha]
    simp [Services.iid, hnil, pyNext]
  · intro s hs
    induction svcs with
    | nil => simp at hs
    | cons x xs ih =>
      by_cases hx : (x.iid == i) = true
      · simp only [List.find?, hx] at hs
        injection hs with hs
        subst hs
        simp [Services.iid, List.filter, hx, pyNext]
      · have hx' : (x.iid == i) = false := by simpa using hx
        simp only [List.find?, hx'] at hs
        have := ih hs
        simpa [Services.iid, List.filter, hx'] using this

/-- Witness for C4's theorem at concrete inputs: the empty collection
raises `StopIteration`, and a present identifier returns its service. -/
theorem iid_lookup_contract_witness :
    Services.iid [] 3 = .error .stopIteration ∧ Services.iid [sMiss, sHit] 2 = .ok sHit := by
  constructor
  · exact (iid_lookup_contract [] 3).1 (by simp)
  · exact (iid_lookup_contract [sMiss, sHit] 2).2 sHit (by decide)

/-- Counterexample to C4 as stated: the failure raised by
`Services.iid` on a missing identifier is the builtin `StopIteration`,
not the `NotFoundError` the claim names. -/
theorem iid_lookup_not_notfounderror :
    Services.iid [] 3 = .error .stopIteration
      ∧ (Except.error PyErr.stopIteration : Except PyErr Service) ≠ .error .notFoundError :=
  ⟨rfl, by decide⟩

/-! ### Claim C2 -/

/-- C2 (amended): whenever `Services.filter` completes without a
characteristic-lookup error, it returns exactly the services satisfying
the conjunction of the supplied `service_type`, `parent_service` and
`child_service` predicates together with the characteristics predicate
as the program actually evaluates it — the stacked lambdas late-bind the
loop variables, so a multi-entry mapping is tested on its LAST entry
only: a service passes iff it owns that entry's characteristic type with
the given value, entries before the last being ignored — with the
returned services in the collection's insertion order. -/
theorem filter_returns_effective_matches (R : Registry) (args : FilterArgs)
    (svcs : List Service) (rt : Option String) (l : List Service)
    (hrt : resolveServiceType R args.serviceType = .ok rt)
    (hok : Services.filter R args svcs = .ok l) :
    l = specFilter R rt (effectiveChars args) args.parentLinked args.childIdx svcs := by
  unfold Services.filter at hok
  rw [hrt] at hok
  exact filterLoop_ok R rt _ _ _ svcs 0 l hok

/-- Witness for C2's theorem: the two-entry mapping keeps exactly the
services whose `d` characteristic (the last entry) carries `"y"` —
including `sCB`, whose `c` value does not match the first entry — in
order. -/
theorem filter_returns_effective_matches_witness :
    Services.filter R0 { characteristics := some [("c", .ofStr "x"), ("d", .ofStr "y")] }
        [sAB, sBB, sCB] = .ok [sAB, sCB]
      ∧ [sAB, sCB] = specFilter R0 none
          (effectiveChars { characteristics := some [("c", .ofStr "x"), ("d", .ofStr "y")] })
          none none [sAB, sBB, sCB] := by
  refine ⟨rfl, ?_⟩
  exact filter_returns_effective_matches R0
    { characteristics := some [("c", .ofStr "x"), ("d", .ofStr "y")] } [sAB, sBB, sCB]
    none [sAB, sCB] rfl rfl

/-- Counterexample to C2 as stated: with the two-entry mapping
`{c: x, d: y}`, the service `sCB` — whose `c` characteristic holds `"z"`,
not `"x"` — is returned without any error, because the late-binding
lambdas only ever test the last entry `d = y`; so `filter` does not
compute the claimed per-entry conjunction. -/
theorem filter_not_per_entry_conjunction :
    Services.filter R0 { characteristics := some [("c", .ofStr "x"), ("d", .ofStr "y")] } [sCB]
        = .ok [sCB]
      ∧ ownsWithValue R0 sCB ("c", .ofStr "x") = false :=
  ⟨rfl, rfl⟩

/-! ### Claim C3 -/

/-- C3 (amended): the characteristic-lookup failure is not absorbed as a
non-match, but its reach is set by the late-binding lambdas, which only
ever consult the mapping's LAST entry: when that last entry names a type
some service in the collection does not own, `filter` propagates the
lookup failure to the caller as an error (the service is not silently
excluded); entries before the last are never consulted at all — the
whole mapping filters (and fails) exactly like the singleton mapping of
its last entry, for `filter` and `first` alike. -/
theorem missing_last_characteristic_propagates (R : Registry)
    (chars : List (String × PyVal)) (k : String) (v : PyVal) (svcs : List Service)
    (hlast : chars.getLast? = some (k, v)) :
    ((∃ s ∈ svcs, ∃ e, Service.getItem R s k = .error e) →
        ∃ e, Services.filter R { characteristics := some chars } svcs = .error e)
      ∧ Services.filter R { characteristics := some chars } svcs
          = Services.filter R { characteristics := some [(k, v)] } svcs
      ∧ Services.first R { characteristics := some chars } svcs
          = Services.first R { characteristics := some [(k, v)] } svcs := by
  have hne : chars.isEmpty = false := by
    cases chars with
    | nil => simp at hlast
    | cons _ _ => rfl
  refine ⟨?_, ?_, ?_⟩
  · intro h
    rcases filterLoop_missing_err R chars k v hlast svcs 0 h with ⟨e, he⟩
    exact ⟨e, by simpa [Services.filter, resolveServiceType, effectiveChars, optDictTruthy,
      optStrTruthy, hne] using he⟩
  · simp [Services.filter, resolveServiceType, effectiveChars, optDictTruthy, optStrTruthy,
      hne, filterLoop_last_entry R none chars k v hlast none none svcs 0]
  · simp [Services.first, resolveServiceType, effectiveChars, optDictTruthy, optStrTruthy,
      hne, firstLoop_last_entry R none chars k v hlast none none svcs 0]

/-- Witness for C3's theorem: a two-entry mapping whose last entry names
`"c"`, over a collection whose only service owns no characteristic at
all — the call fails, and behaves exactly as the singleton mapping of
the last entry. -/
theorem missing_last_characteristic_propagates_witness :
    (∃ e, Services.filter R0
        { characteristics := some [("a", PyVal.ofStr "q"), ("c", PyVal.ofStr "q")] } [sMiss]
          = .error e)
      ∧ Services.filter R0
            { characteristics := some [("a", PyVal.ofStr "q"), ("c", PyVal.ofStr "q")] } [sMiss]
          = Services.filter R0 { characteristics := some [("c", PyVal.ofStr "q")] } [sMiss] := by
  have h := missing_last_characteristic_propagates R0
    [("a", PyVal.ofStr "q"), ("c", PyVal.ofStr "q")] "c" (PyVal.ofStr "q") [sMiss] rfl
  exact ⟨h.1 ⟨sMiss, by simp, PyErr.missingCharacteristic, rfl⟩, h.2.1⟩

/-- Counterexample to C3 as stated: `sMiss` lacks `"c"` while `sHit` owns
it with the requested value; the claim says `sMiss` is simply excluded
(so `first` returns `sHit` and `filter` returns `[sHit]`), but both calls
raise the lookup failure instead. -/
theorem missing_characteristic_not_absorbed :
    Services.first R0 { characteristics := some [("c", .ofStr "x")] } [sMiss, sHit]
        = .error .missingCharacteristic
      ∧ Services.filter R0 { characteristics := some [("c", .ofStr "x")] } [sMiss, sHit]
        = .error .missingCharacteristic :=
  ⟨rfl, rfl⟩

/-! ### Claim C5 -/

/-- C5 (amended): whenever `filter` completes without error, `first`
returns the head of the filter result when it is non-empty and the
no-match sentinel `None` otherwise — in particular it never raises on an
empty collection or on a `service_type` that matches no service. -/
theorem first_returns_head_of_filter (R : Registry) (args : FilterArgs) (svcs : List Service)
    (l : List Service) (hok : Services.filter R args svcs = .ok l) :
    Services.first R args svcs = .ok l.head? := by
  unfold Services.filter at hok
  unfold Services.first
  cases hrt : resolveServiceType R args.serviceType with
  | error e => rw [hrt] at hok; exact absurd hok (by simp)
  | ok rt => rw [hrt] at hok; exact firstLoop_of_filterLoop R rt _ _ _ svcs 0 l hok

/-- Witness for C5's theorem: a `service_type` naming no present service
and the empty collection both give `None` without raising. -/
theorem first_returns_head_of_filter_witness :
    Services.first R0 { serviceType := some "Z" } [sMiss] = .ok none
      ∧ Services.first R0 {} [] = .ok none := by
  constructor
  · exact first_returns_head_of_filter R0 { serviceType := some "Z" } [sMiss] [] rfl
  · exact first_returns_head_of_filter R0 {} [] [] rfl

/-- Counterexample to C5 as stated: with a characteristics predicate
naming a type its only service lacks, `first` raises instead of returning
the no-match sentinel. -/
theorem first_raises_on_missing_characteristic :
    Services.first R0 { characteristics := some [("d", .ofStr "q")] } [sMiss]
      = .error .missingCharacteristic :=
  rfl

/-! ### Claim C9 -/

/-- C9: after `s1.add_linked_service(s2)` within one accessory, the link
is observable from both directions through the query engine:
`filter(parent_service=s1)` includes `s2`, and `filter(child_service=s2)`
includes `s1`. -/
theorem add_linked_service_bidirectional (R : Registry) (a : Accessory) (i j : Nat)
    (s1 s2 : Service)
    (h1 : (a.add_linked_service i j).services.get? i = some s1)
    (h2 : (a.add_linked_service i j).services.get? j = some s2) :
    (∃ l1, Services.filter R { parentLinked := some s1.linked }
        (a.add_linked_service i j).services = .ok l1 ∧ s2 ∈ l1)
      ∧ (∃ l2, Services.filter R { childIdx := some j }
        (a.add_linked_service i j).services = .ok l2 ∧ s1 ∈ l2) := by
  have hget : (a.add_linked_service i j).services.get? i
      = (a.services.get? i).map (fun s => { s with linked := s.linked ++ [j] }) :=
    listUpdate_get?_self a.services i _
  rw [hget] at h1
  cases h0 : a.services.get? i with
  | none => rw [h0] at h1; cases h1
  | some t0 =>
    rw [h0] at h1
    injection h1 with h1
    have hj : j ∈ s1.linked := by rw [← h1]; simp
    constructor
    · refine ⟨specFilterFrom R none [] (some s1.linked) none 0 (a.add_linked_service i j).services,
        ?_, ?_⟩
      · simpa [Services.filter, resolveServiceType, effectiveChars, optDictTruthy, optStrTruthy]
          using filterLoop_no_chars R none (some s1.linked) none
            (a.add_linked_service i j).services 0
      · refine specFilterFrom_mem R none [] (some s1.linked) none
          (a.add_linked_service i j).services 0 j s2 h2 ?_
        simp [specMatch, typePass, parentPass, childPass, lastEntryMatch, hj]
    · refine ⟨specFilterFrom R none [] none (some j) 0 (a.add_linked_service i j).services,
        ?_, ?_⟩
      · simpa [Services.filter, resolveServiceType, effectiveChars, optDictTruthy, optStrTruthy]
          using filterLoop_no_chars R none none (some j)
            (a.add_linked_service i j).services 0
      · refine specFilterFrom_mem R none [] none (some j)
          (a.add_linked_service i j).services 0 i s1 ?_ ?_
        · rw [hget, h0]
          simp [h1]
        · simp [specMatch, typePass, parentPass, childPass, lastEntryMatch, hj]

/-- Service 0 of `aLink` after linking service 1 from it. -/
def s1W : Service := { iid := 1, type := "T", linked := [1] }

/-- Service 1 of `aLink` (unchanged by the link). -/
def s2W : Service := { iid := 2, type := "U" }

/-- Witness for C9's theorem on the concrete two-service accessory. -/
theorem add_linked_service_bidirectional_witness :
    (∃ l1, Services.filter R0 { parentLinked := some s1W.linked }
        (aLink.add_linked_service 0 1).services = .ok l1 ∧ s2W ∈ l1)
      ∧ (∃ l2, Services.filter R0 { childIdx := some 1 }
        (aLink.add_linked_service 0 1).services = .ok l2 ∧ s1W ∈ l2) :=
  add_linked_service_bidirectional R0 aLink 0 1 s1W s2W (by decide) (by decide)

/-! ### Claim C6 -/

/-- C6 evidence (code bug at the failing input): deserializing `rec6`
leaves the private counter at 1 although the stored service carries
identifier 2, so the very next `add_service` call assigns identifier 2
again — two services of one accessory now share an `instance_id`, which
the claim (and the spec's uniqueness invariant) forbids. -/
theorem reload_then_add_service_collides :
    Accessory.create_from_dict R0 rec6 = .ok accReloaded
      ∧ accReloaded.add_service R0 "T" none false = .ok (accCollided, 1)
      ∧ accCollided.services.map (fun s => s.iid) = [2, 2]
      ∧ ¬(accCollided.services.map (fun s => s.iid)).Nodup := by
  refine ⟨by decide, by decide, by decide, by decide⟩

/-! ### Claim C8 -/

/-- C8 (amended): a record missing a mandatory field — `aid`, or `iid` /
`type` on a service entry, or `perms` / `format` / `type` / `iid` on a
characteristic entry — aborts `create_from_dict` with the builtin
`KeyError` of the failing dictionary access (shown here with the faulty
entry first, so that no earlier fault can strike before it); no
partially-populated accessory is ever returned. -/
theorem missing_mandatory_field_keyerror (R : Registry) :
    (∀ data : AccessoryRecord, data.aid = none →
        Accessory.create_from_dict R data = .error .keyError)
      ∧ (∀ (aid : Int) (sd : ServiceRecord) (rest : List ServiceRecord), sd.type = none →
        Accessory.create_from_dict R { aid := some aid, services := some (sd :: rest) }
          = .error .keyError)
      ∧ (∀ (aid : Int) (sd : ServiceRecord) (rest : List ServiceRecord) (t u : String),
        sd.type = some t → R.svcResolve t = some u → sd.iid = none →
        Accessory.create_from_dict R { aid := some aid, services := some (sd :: rest) }
          = .error .keyError)
      ∧ (∀ (aid siid : Int) (t u : String) (cd : CharRecord) (crest : List CharRecord)
          (rest : List ServiceRecord) (lo : Option (List Int)),
        R.svcResolve t = some u → cd.perms = none →
        Accessory.create_from_dict R
          { aid := some aid,
            services := some
              ({ iid := some siid, type := some t,
                 characteristics := some (cd :: crest), linked := lo } :: rest) }
          = .error .keyError)
      ∧ (∀ (aid siid : Int) (t u : String) (p : List String) (cd : CharRecord)
          (crest : List CharRecord) (rest : List ServiceRecord) (lo : Option (List Int)),
        R.svcResolve t = some u → cd.perms = some p → cd.format = none →
        Accessory.create_from_dict R
          { aid := some aid,
            services := some
              ({ iid := some siid, type := some t,
                 characteristics := some (cd :: crest), linked := lo } :: rest) }
          = .error .keyError)
      ∧ (∀ (aid siid : Int) (t u : String) (p : List String) (f : String) (cd : CharRecord)
          (crest : List CharRecord) (rest : List ServiceRecord) (lo : Option (List Int)),
        R.svcResolve t = some u → cd.perms = some p → cd.format = some f → cd.type = none →
        Accessory.create_from_dict R
          { aid := some aid,
            services := some
              ({ iid := some siid, type := some t,
                 characteristics := some (cd :: crest), linked := lo } :: rest) }
          = .error .keyError)
      ∧ (∀ (aid siid : Int) (t u : String) (p : List String) (f ct cu : String)
          (cd : CharRecord) (crest : List CharRecord) (rest : List ServiceRecord)
          (lo : Option (List Int)),
        R.svcResolve t = some u → cd.perms = some p → cd.format = some f →
        cd.type = some ct → R.charResolve ct = some cu → cd.iid = none →
        Accessory.create_from_dict R
          { aid := some aid,
            services := some
              ({ iid := some siid, type := some t,
                 characteristics := some (cd :: crest), linked := lo } :: rest) }
          = .error .keyError) := by
  refine ⟨?_, ?_, ?_, ?_, ?_, ?_, ?_⟩
  · intro data h
    simp [Accessory.create_from_dict, firstPass, keyGet, h]
  · intro aid sd rest h
    simp [Accessory.create_from_dict, firstPass, buildServices, keyGet, h]
  · intro aid sd rest t u h1 h2 h3
    simp [Accessory.create_from_dict, firstPass, buildServices, Accessory.add_service,
      keyGet, h1, h2, h3]
  · intro aid siid t u cd crest rest lo h1 h2
    simp [Accessory.create_from_dict, firstPass, buildServices, Accessory.add_service,
      Accessory.setServiceIid, buildChars, keyGet, listUpdate, h1, h2]
  · intro aid siid t u p cd crest rest lo h1 h2 h3
    simp [Accessory.create_from_dict, firstPass, buildServices, Accessory.add_service,
      Accessory.setServiceIid, buildChars, keyGet, listUpdate, h1, h2, h3]
  · intro aid siid t u p f cd crest rest lo h1 h2 h3 h4
    simp [Accessory.create_from_dict, firstPass, buildServices, Accessory.add_service,
      Accessory.setServiceIid, buildChars, keyGet, listUpdate, h1, h2, h3, h4]
  · intro aid siid t u p f ct cu cd crest rest lo h1 h2 h3 h4 h5 h6
    simp [Accessory.create_from_dict, firstPass, buildServices, Accessory.add_service,
      Accessory.setServiceIid, Accessory.add_char, Accessory.setCharIid, buildChars,
      keyGet, listUpdate, h1, h2, h3, h4, h5, h6]

/-- Witness for C8's theorem: each kind of missing mandatory field at a
concrete record. -/
theorem missing_mandatory_field_keyerror_witness :
    Accessory.create_from_dict R0 { aid := none, services := none } = .error .keyError
      ∧ Accessory.create_from_dict R0 { aid := some 1, services := some [{ iid := some 1 }] }
          = .error .keyError
      ∧ Accessory.create_from_dict R0 { aid := some 1, services := some [{ type := some "T" }] }
          = .error .keyError
      ∧ Accessory.create_from_dict R0
          { aid := some 1,
            services := some
              [{ iid := some 1, type := some "T",
                 characteristics := some [{ iid := some 2, type := some "c", format := some "bool" }] }] }
          = .error .keyError
      ∧ Accessory.create_from_dict R0
          { aid := some 1,
            services := some
              [{ iid := some 1, type := some "T",
                 characteristics := some [{ iid := some 2, type := some "c", perms := some [] }] }] }
          = .error .keyError
      ∧ Accessory.create_from_dict R0
          { aid := some 1,
            services := some
              [{ iid := some 1, type := some "T",
                 characteristics := some [{ iid := some 2, perms := some [], format := some "bool" }] }] }
          = .error .keyError
      ∧ Accessory.create_from_dict R0
          { aid := some 1,
            services := some
              [{ iid := some 1, type := some "T",
                 characteristics := some [{ type := some "c", perms := some [], format := some "bool" }] }] }
          = .error .keyError := by
  refine ⟨?_, ?_, ?_, ?_, ?_, ?_, ?_⟩
  · exact (missing_mandatory_field_keyerror R0).1 { aid := none, services := none } rfl
  · exact (missing_mandatory_field_keyerror R0).2.1 1 { iid := some 1 } [] rfl
  · exact (missing_mandatory_field_keyerror R0).2.2.1 1 { type := some "T" } [] "T" "T"
      rfl rfl rfl
  · exact (missing_mandatory_field_keyerror R0).2.2.2.1 1 1 "T" "T"
      { iid := some 2, type := some "c", format := some "bool" } [] [] none rfl rfl
  · exact (missing_mandatory_field_keyerror R0).2.2.2.2.1 1 1 "T" "T" []
      { iid := some 2, type := some "c", perms := some [] } [] [] none rfl rfl rfl
  · exact (missing_mandatory_field_keyerror R0).2.2.2.2.2.1 1 1 "T" "T" [] "bool"
      { iid := some 2, perms := some [], format := some "bool" } [] [] none rfl rfl rfl rfl
  · exact (missing_mandatory_field_keyerror R0).2.2.2.2.2.2 1 1 "T" "T" [] "bool" "c" "c"
      { type := some "c", perms := some [], format := some "bool" } [] [] none
      rfl rfl rfl rfl rfl rfl

/-- Counterexample to C8 as stated: the structural failure raised on a
missing mandatory field is the builtin `KeyError`, not the
`MalformedRecordError` the claim names. -/
theorem missing_mandatory_field_not_malformedrecord :
    Accessory.create_from_dict R0 { aid := none, services := none } = .error .keyError
      ∧ (Except.error PyErr.keyError : Except PyErr Accessory) ≠ .error .malformedRecord :=
  ⟨rfl, by decide⟩

/-! ### Claim C7 -/

/-- Linking never changes any service's stored identifier. -/
theorem add_linked_service_iids (a : Accessory) (i j : Nat) :
    (a.add_linked_service i j).services.map (fun s => s.iid)
      = a.services.map (fun s => s.iid) :=
  map_listUpdate _ _ _ _ (fun _ => rfl)

/-- `Services.iidIdx` restated over the bare identifier list. -/
def idsIdx (ids : List Int) (x : Int) : Except PyErr Nat :=
  pyNext ((ids.enum.filter (fun p => p.2 == x)).map (fun p => p.1))

theorem enumFrom_filter_iid (x : Int) :
    ∀ (svcs : List Service) (n : Nat),
      (((svcs.enumFrom n).filter (fun p => p.2.iid == x)).map (fun p => p.1))
        = ((((svcs.map (fun s => s.iid)).enumFrom n).filter (fun p => p.2 == x)).map
            (fun p => p.1)) := by
  intro svcs
  induction svcs with
  | nil => intro n; rfl
  | cons s rest ih =>
    intro n
    by_cases hx : (s.iid == x) = true <;>
      simp [List.enumFrom, List.filter, hx, ih (n + 1)]

theorem iidIdx_eq_idsIdx (svcs : List Service) (x : Int) :
    Services.iidIdx svcs x = idsIdx (svcs.map (fun s => s.iid)) x := by
  unfold Services.iidIdx idsIdx
  rw [show svcs.enum = svcs.enumFrom 0 from rfl,
    show (svcs.map (fun s => s.iid)).enum = (svcs.map (fun s => s.iid)).enumFrom 0 from rfl]
  rw [enumFrom_filter_iid x svcs 0]

theorem enumFrom_filter_not_mem (x : Int) :
    ∀ (ids : List Int) (n : Nat), x ∉ ids →
      (ids.enumFrom n).filter (fun p => p.2 == x) = [] := by
  intro ids
  induction ids with
  | nil => intro n _; rfl
  | cons y rest ih =>
    intro n h
    have hy : (y == x) = false := by
      simp only [List.mem_cons, not_or] at h
      simpa using fun hc => h.1 hc.symm
    simp [List.enumFrom, List.filter, hy, ih (n + 1) (by simp only [List.mem_cons, not_or] at h; exact h.2)]

theorem idsIdx_not_mem (ids : List Int) (x : Int) (h : x ∉ ids) :
    idsIdx ids x = .error .stopIteration := by
  unfold idsIdx
  rw [show ids.enum = ids.enumFrom 0 from rfl, enumFrom_filter_not_mem x ids 0 h]
  rfl

theorem enumFrom_filter_mem (x : Int) :
    ∀ (ids : List Int) (n : Nat), x ∈ ids →
      ∃ m l, (((ids.enumFrom n).filter (fun p => p.2 == x)).map (fun p => p.1)) = m :: l := by
  intro ids
  induction ids with
  | nil => intro n h; simp at h
  | cons y rest ih =>
    intro n h
    by_cases hy : (y == x) = true
    · exact ⟨n, ((rest.enumFrom (n + 1)).filter (fun p => p.2 == x)).map (fun p => p.1),
        by simp [List.enumFrom, List.filter, hy]⟩
    · have hmem : x ∈ rest := by
        rcases List.mem_cons.mp h with rfl | hm
        · simp at hy
        · exact hm
      rcases ih (n + 1) hmem with ⟨m, l, hl⟩
      exact ⟨m, l, by simp [List.enumFrom, List.filter, hy, hl]⟩

theorem idsIdx_mem (ids : List Int) (x : Int) (h : x ∈ ids) :
    ∃ n, idsIdx ids x = .ok n := by
  unfold idsIdx
  rw [show ids.enum = ids.enumFrom 0 from rfl]
  rcases enumFrom_filter_mem x ids 0 h with ⟨m, l, hl⟩
  exact ⟨m, by rw [hl]; rfl⟩

theorem linkLoop_err :
    ∀ (xs : List Int) (a : Accessory) (y : Int),
      y ∈ a.services.map (fun s => s.iid) →
      (∃ x ∈ xs, x ∉ a.services.map (fun s => s.iid)) →
      linkLoop a (some y) xs = .error .stopIteration := by
  intro xs
  induction xs with
  | nil => intro a y _ h; simp at h
  | cons x rest ih =>
    intro a y hy hbad
    rcases idsIdx_mem _ y hy with ⟨srcI, hsrc⟩
    have hsrc' : Services.iidIdx a.services y = .ok srcI := by
      rw [iidIdx_eq_idsIdx]; exact hsrc
    by_cases hx : x ∈ a.services.map (fun s => s.iid)
    · rcases idsIdx_mem _ x hx with ⟨tgtI, htgt⟩
      have htgt' : Services.iidIdx a.services x = .ok tgtI := by
        rw [iidIdx_eq_idsIdx]; exact htgt
      have hrest : ∃ z ∈ rest, z ∉ a.services.map (fun s => s.iid) := by
        rcases hbad with ⟨z, hz, hznot⟩
        rcases List.mem_cons.mp hz with rfl | hzr
        · exact absurd hx hznot
        · exact ⟨z, hzr, hznot⟩
      have hy2 : y ∈ (a.add_linked_service srcI tgtI).services.map (fun s => s.iid) := by
        rw [add_linked_service_iids]; exact hy
      have hrest2 : ∃ z ∈ rest,
          z ∉ (a.add_linked_service srcI tgtI).services.map (fun s => s.iid) := by
        rcases hrest with ⟨z, hzr, hznot⟩
        exact ⟨z, hzr, by rw [add_linked_service_iids]; exact hznot⟩
      simp only [linkLoop, keyGet, hsrc', htgt']
      exact ih (a.add_linked_service srcI tgtI) y hy2 hrest2
    · have htgt' : Services.iidIdx a.services x = .error .stopIteration := by
        rw [iidIdx_eq_idsIdx]; exact idsIdx_not_mem _ x hx
      simp [linkLoop, keyGet, hsrc', htgt']

theorem linkLoop_ok_iids :
    ∀ (xs : List Int) (a : Accessory) (y : Int),
      y ∈ a.services.map (fun s => s.iid) →
      (∀ x ∈ xs, x ∈ a.services.map (fun s => s.iid)) →
      ∃ a', linkLoop a (some y) xs = .ok a'
        ∧ a'.services.map (fun s => s.iid) = a.services.map (fun s => s.iid) := by
  intro xs
  induction xs with
  | nil => intro a y _ _; exact ⟨a, rfl, rfl⟩
  | cons x rest ih =>
    intro a y hy hall
    rcases idsIdx_mem _ y hy with ⟨srcI, hsrc⟩
    have hsrc' : Services.iidIdx a.services y = .ok srcI := by
      rw [iidIdx_eq_idsIdx]; exact hsrc
    rcases idsIdx_mem _ x (hall x (by simp)) with ⟨tgtI, htgt⟩
    have htgt' : Services.iidIdx a.services x = .ok tgtI := by
      rw [iidIdx_eq_idsIdx]; exact htgt
    have hy2 : y ∈ (a.add_linked_service srcI tgtI).services.map (fun s => s.iid) := by
      rw [add_linked_service_iids]; exact hy
    have hall2 : ∀ z ∈ rest,
        z ∈ (a.add_linked_service srcI tgtI).services.map (fun s => s.iid) := by
      intro z hz
      rw [add_linked_service_iids]
      exact hall z (by simp [hz])
    rcases ih (a.add_linked_service srcI tgtI) y hy2 hall2 with ⟨a', ha', hiids⟩
    refine ⟨a', ?_, ?_⟩
    · simp only [linkLoop, keyGet, hsrc', htgt']
      exact ha'
    · rw [hiids, add_linked_service_iids]

theorem linkPass_err :
    ∀ (sds : List ServiceRecord) (a : Accessory),
      (∀ sd ∈ sds, ∃ y, sd.iid = some y ∧ y ∈ a.services.map (fun s => s.iid)) →
      (∃ sd ∈ sds, ∃ x ∈ sd.linked.getD [], x ∉ a.services.map (fun s => s.iid)) →
      linkPass a sds = .error .stopIteration := by
  intro sds
  induction sds with
  | nil => intro a _ h; simp at h
  | cons sd rest ih =>
    intro a hgood hbad
    rcases hgood sd (by simp) with ⟨y, hy, hymem⟩
    by_cases hhead : ∃ x ∈ sd.linked.getD [], x ∉ a.services.map (fun s => s.iid)
    · have hll := linkLoop_err (sd.linked.getD []) a y hymem hhead
      simp [linkPass, hy, hll]
    · have hall : ∀ x ∈ sd.linked.getD [], x ∈ a.services.map (fun s => s.iid) := by
        intro x hx
        by_contra hc
        exact hhead ⟨x, hx, hc⟩
      rcases linkLoop_ok_iids (sd.linked.getD []) a y hymem hall with ⟨a', ha', hiids⟩
      have hrest : ∃ sd2 ∈ rest, ∃ x ∈ sd2.linked.getD [],
          x ∉ a'.services.map (fun s => s.iid) := by
        rcases hbad with ⟨sd2, hsd2, x, hx, hxnot⟩
        rcases List.mem_cons.mp hsd2 with rfl | hr
        · exact absurd ⟨x, hx, hxnot⟩ hhead
        · exact ⟨sd2, hr, x, hx, by rw [hiids]; exact hxnot⟩
      have hgood2 : ∀ sd2 ∈ rest, ∃ y2, sd2.iid = some y2
          ∧ y2 ∈ a'.services.map (fun s => s.iid) := by
        intro sd2 hr
        rcases hgood sd2 (by simp [hr]) with ⟨y2, hy2, hy2mem⟩
        exact ⟨y2, hy2, by rw [hiids]; exact hy2mem⟩
      simp only [linkPass, hy, ha']
      exact ih a' hgood2 hrest

theorem keyGet_ok {α : Type} (o : Option α) (x : α) (h : keyGet o = .ok x) : o = some x := by
  cases o with
  | none => simp [keyGet] at h
  | some z => simp [keyGet] at h; rw [h]

theorem setCharIid_iids (a : Accessory) (si ci : Nat) (x : Int) :
    (a.setCharIid si ci x).services.map (fun s => s.iid)
      = a.services.map (fun s => s.iid) :=
  map_listUpdate _ _ _ _ (fun _ => rfl)

theorem add_char_iids (R : Registry) (a : Accessory) (si : Nat) (ct : String)
    (opts : CharOptions) (a1 : Accessory) (ci : Nat)
    (h : Accessory.add_char R a si ct opts = .ok (a1, ci)) :
    a1.services.map (fun s => s.iid) = a.services.map (fun s => s.iid) := by
  unfold Accessory.add_char at h
  split at h
  · cases h
  · split at h
    · cases h
    · split at h
      · cases h
      · injection h with h
        injection h with hA hB
        subst hA
        exact map_listUpdate _ _ _ _ (fun _ => rfl)

theorem buildChars_iids (R : Registry) (si : Nat) :
    ∀ (cds : List CharRecord) (a a' : Accessory),
      buildChars R si a cds = .ok a' →
      a'.services.map (fun s => s.iid) = a.services.map (fun s => s.iid) := by
  intro cds
  induction cds with
  | nil =>
    intro a a' h
    injection h with h
    rw [h]
  | cons cd rest ih =>
    intro a a' h
    simp only [buildChars] at h
    cases h1 : keyGet cd.perms with
    | error e => simp [h1] at h
    | ok perms =>
      simp only [h1] at h
      cases h2 : keyGet cd.format with
      | error e => simp [h2] at h
      | ok format =>
        simp only [h2] at h
        cases h3 : keyGet cd.type with
        | error e => simp [h3] at h
        | ok ct =>
          simp only [h3] at h
          cases h4 : Accessory.add_char R a si ct
              { perms := some perms, format := some format,
                description := cd.description, value := cd.value,
                minValue := cd.minValue, maxValue := cd.maxValue,
                validValues := cd.validValues, unit := cd.unit,
                minStep := cd.minStep, maxLen := cd.maxLen } with
          | error e => simp [h4] at h
          | ok p =>
            obtain ⟨a1, ci⟩ := p
            simp only [h4] at h
            cases h5 : keyGet cd.iid with
            | error e => simp [h5] at h
            | ok ciid =>
              simp only [h5] at h
              rw [ih _ _ h, setCharIid_iids, add_char_iids R a si ct _ a1 ci h4]

theorem add_service_shape (R : Registry) (a : Accessory) (st : String) (a1 : Accessory)
    (si : Nat) (h : Accessory.add_service R a st none false = .ok (a1, si)) :
    ∃ t, R.svcResolve st = some t
      ∧ a1.services = a.services ++ [{ iid := a.nextId + 1, type := t, name := none }]
      ∧ si = a.services.length ∧ a1.aid = a.aid ∧ a1.nextId = a.nextId + 1 := by
  unfold Accessory.add_service at h
  cases hr : R.svcResolve st with
  | none => rw [hr] at h; cases h
  | some t =>
    rw [hr] at h
    injection h with h
    injection h with hA hB
    subst hA
    subst hB
    exact ⟨t, rfl, rfl, rfl, rfl, rfl⟩

theorem buildServices_iids (R : Registry) :
    ∀ (sds : List ServiceRecord) (a0 a : Accessory),
      buildServices R a0 sds = .ok a →
      ∃ tail, a.services.map (fun s => s.iid) = a0.services.map (fun s => s.iid) ++ tail
        ∧ ∀ sd ∈ sds, ∃ y, sd.iid = some y ∧ y ∈ tail := by
  intro sds
  induction sds with
  | nil =>
    intro a0 a h
    injection h with h
    subst h
    exact ⟨[], by simp, by simp⟩
  | cons sd rest ih =>
    intro a0 a h
    simp only [buildServices] at h
    cases h1 : keyGet sd.type with
    | error e => simp [h1] at h
    | ok st =>
      simp only [h1] at h
      cases h2 : Accessory.add_service R a0 st none false with
      | error e => simp [h2] at h
      | ok p =>
        obtain ⟨a1, si⟩ := p
        simp only [h2] at h
        cases h3 : keyGet sd.iid with
        | error e => simp [h3] at h
        | ok siid =>
          simp only [h3] at h
          cases h4 : keyGet sd.characteristics with
          | error e => simp [h4] at h
          | ok cds =>
            simp only [h4] at h
            cases h5 : buildChars R si (a1.setServiceIid si siid) cds with
            | error e => simp [h5] at h
            | ok a2 =>
              simp only [h5] at h
              rcases ih a2 a h with ⟨tail, htail, hmem⟩
              rcases add_service_shape R a0 st a1 si h2 with ⟨t, _, hsvcs, hsi, _, _⟩
              have hmap2 : a2.services.map (fun s => s.iid)
                  = a0.services.map (fun s => s.iid) ++ [siid] := by
                rw [buildChars_iids R si cds _ a2 h5]
                unfold Accessory.setServiceIid
                rw [hsvcs, hsi]
                rw [show a0.services ++ [{ iid := a0.nextId + 1, type := t, name := none }]
                    = a0.services ++ { iid := a0.nextId + 1, type := t, name := none } :: []
                  from rfl]
                rw [listUpdate_append_cons]
                simp
              refine ⟨siid :: tail, ?_, ?_⟩
              · rw [htail, hmap2]
                simp
              · intro sd2 hsd2
                rcases List.mem_cons.mp hsd2 with rfl | hr
                · exact ⟨siid, keyGet_ok _ _ h3, by simp⟩
                · rcases hmem sd2 hr with ⟨y, hy, hmemy⟩
                  exact ⟨y, hy, by simp [hmemy]⟩

/-- C7 (amended): when some service record's `linked` list names an
identifier carried by no service of the same accessory record, and the
construction passes succeed, `create_from_dict` fails — by raising the
builtin `StopIteration` of the bare `next(...)` inside `Services.iid`,
not the `NotFoundError` the claim names.  Links are only ever resolved
against the accessory's own services, so no cross-accessory link can be
established. -/
theorem unresolved_link_stopiteration (R : Registry) (data : AccessoryRecord)
    (sds : List ServiceRecord) (a : Accessory)
    (hs : data.services = some sds)
    (hfp : firstPass R data = .ok a)
    (hbad : ∃ sd ∈ sds, ∃ x ∈ sd.linked.getD [], x ∉ a.services.map (fun s => s.iid)) :
    Accessory.create_from_dict R data = .error .stopIteration := by
  have hgood : ∀ sd ∈ sds, ∃ y, sd.iid = some y
      ∧ y ∈ a.services.map (fun s => s.iid) := by
    unfold firstPass at hfp
    cases h1 : keyGet data.aid with
    | error e => simp [h1] at hfp
    | ok aid =>
      simp only [h1] at hfp
      simp only [hs, keyGet] at hfp
      rcases buildServices_iids R sds { aid := aid } a hfp with ⟨tail, htail, hmem⟩
      intro sd hsd
      rcases hmem sd hsd with ⟨y, hy, hymem⟩
      refine ⟨y, hy, ?_⟩
      rw [htail]
      simpa using hymem
  have hlp := linkPass_err sds a hgood hbad
  simp [Accessory.create_from_dict, hfp, hs, keyGet, hlp]

/-- The accessory the first pass of `rec7` builds. -/
def a7 : Accessory := { aid := 1, nextId := 1, services := [{ iid := 1, type := "T" }] }

/-- Witness for C7's theorem at the concrete record `rec7`. -/
theorem unresolved_link_stopiteration_witness :
    Accessory.create_from_dict R0 rec7 = .error .stopIteration :=
  unresolved_link_stopiteration R0 rec7
    [{ iid := some 1, type := some "T", characteristics := some [], linked := some [9] }] a7
    rfl (by decide)
    ⟨{ iid := some 1, type := some "T", characteristics := some [], linked := some [9] },
      by simp, 9, by simp, by decide⟩

/-- Counterexample to C7 as stated: the failure on an unresolvable linked
identifier is the builtin `StopIteration`, not `NotFoundError`. -/
theorem unresolved_link_not_notfounderror :
    Accessory.create_from_dict R0 rec7 = .error .stopIteration
      ∧ (Except.error PyErr.stopIteration : Except PyErr Accessory) ≠ .error .notFoundError :=
  ⟨by decide, by decide⟩

/-! ### Claim C1: round-trip lemmas -/

theorem listUpdate_congr {α : Type} :
    ∀ (l : List α) (i : Nat) (f g : α → α) (s : α),
      l.get? i = some s → f s = g s → listUpdate l i f = listUpdate l i g := by
  intro l
  induction l with
  | nil => intro i f g s h _; cases h
  | cons x xs ih =>
    intro i f g s h hfg
    cases i with
    | zero =>
      injection h with h
      subst h
      simp [listUpdate, hfg]
    | succ n =>
      simp only [listUpdate]
      rw [ih n f g s (by simpa using h) hfg]

/-- One deserialization step of a serialized characteristic: reading back
`toRecord c` appends exactly `c` (the freshly assigned identifier is
immediately overwritten by the stored one) and bumps the counter. -/
theorem buildChars_step (R : Registry) (a : Accessory) (si : Nat) (s : Service)
    (c : Characteristic) (rest : List CharRecord)
    (hget : a.services.get? si = some s)
    (hres : R.charResolve c.type = some c.type)
    (hdup : ∀ c0 ∈ s.characteristics, ¬c0.type = c.type) :
    buildChars R si a (Characteristic.toRecord c :: rest)
      = buildChars R si
          { a with
              nextId := a.nextId + 1,
              services := listUpdate a.services si
                (fun t => { t with characteristics := t.characteristics ++ [c] }) } rest := by
  have hdupb : (s.characteristics.any (fun c0 => c0.type == c.type)) = false := by
    rw [List.any_eq_false]
    intro c0 hc0
    simpa using hdup c0 hc0
  simp only [buildChars, Characteristic.toRecord, keyGet, Accessory.add_char, hres, hget,
    hdupb, Bool.false_eq_true, if_false, Option.getD_some]
  congr 1
  rw [Accessory.setCharIid]
  congr 1
  rw [listUpdate_listUpdate]
  refine listUpdate_congr a.services si _ _ s hget ?_
  simp only [listUpdate_append_cons]

theorem listUpdate_id {α : Type} : ∀ (l : List α) (i : Nat), listUpdate l i (fun x => x) = l := by
  intro l
  induction l with
  | nil => intro i; rfl
  | cons x xs ih =>
    intro i
    cases i with
    | zero => rfl
    | succ n => simp [listUpdate, ih n]

theorem buildChars_roundtrip (R : Registry) (si : Nat) :
    ∀ (cs : List Characteristic) (a : Accessory) (s : Service),
      a.services.get? si = some s →
      (∀ c ∈ cs, R.charResolve c.type = some c.type) →
      (∀ c ∈ cs, ∀ c0 ∈ s.characteristics, ¬c0.type = c.type) →
      ((cs.map (fun c => c.type)).Nodup) →
      buildChars R si a (cs.map Characteristic.toRecord)
        = .ok { a with
            nextId := a.nextId + cs.length,
            services := listUpdate a.services si
              (fun t => { t with characteristics := t.characteristics ++ cs }) } := by
  intro cs
  induction cs with
  | nil =>
    intro a s hget _ _ _
    simp only [List.map_nil, buildChars]
    congr 1
    cases a with
    | mk aid nid svcs =>
      simp only [Accessory.mk.injEq]
      refine ⟨trivial, by simp, ?_⟩
      have hfun : (fun t : Service =>
          { t with characteristics := t.characteristics ++ ([] : List Characteristic) })
            = fun t => t := by
        funext t
        simp
      rw [hfun, listUpdate_id]
  | cons c rest ih =>
    intro a s hget hres hdup hnodup
    simp only [List.map_cons]
    rw [buildChars_step R a si s c (rest.map Characteristic.toRecord) hget
      (hres c (by simp)) (fun c0 hc0 => hdup c (by simp) c0 hc0)]
    have hget' : (listUpdate a.services si
        (fun t => { t with characteristics := t.characteristics ++ [c] })).get? si
          = some { s with characteristics := s.characteristics ++ [c] } := by
      rw [listUpdate_get?_self, hget]
      rfl
    have hres' : ∀ c' ∈ rest, R.charResolve c'.type = some c'.type :=
      fun c' h => hres c' (by simp [h])
    have hdup' : ∀ c' ∈ rest, ∀ c0 ∈ s.characteristics ++ [c], ¬c0.type = c'.type := by
      intro c' hc' c0 hc0
      rcases List.mem_append.mp hc0 with h0 | h0
      · exact hdup c' (by simp [hc']) c0 h0
      · have hc0c : c0 = c := by simpa using h0
        subst hc0c
        intro hEq
        have hmem : c'.type ∈ rest.map (fun c => c.type) := List.mem_map_of_mem _ hc'
        rw [← hEq] at hmem
        exact (List.nodup_cons.mp hnodup).1 hmem
    have hnodup' : (rest.map (fun c => c.type)).Nodup := (List.nodup_cons.mp hnodup).2
    rw [ih _ { s with characteristics := s.characteristics ++ [c] } hget' hres' hdup' hnodup']
    congr 1
    cases a with
    | mk aid nid svcs =>
      simp only [Accessory.mk.injEq]
      refine ⟨trivial, ?_, ?_⟩
      · simp only [List.length_cons]
        push_cast
        ring
      · rw [listUpdate_listUpdate]
        have hfun : (fun x : Service =>
            { ({ x with characteristics := x.characteristics ++ [c] } : Service) with
                characteristics :=
                  ({ x with characteristics := x.characteristics ++ [c] } : Service).characteristics
                    ++ rest })
              = fun t : Service => { t with characteristics := t.characteristics ++ c :: rest } := by
          funext t
          simp
        exact congrArg (fun f => listUpdate svcs si f) hfun

/-- The shape a service reloads to before the link pass: stored iid, type
and characteristics survive; the display name is not serialized; links are
rebuilt later. -/
def stripSvc (s : Service) : Service :=
  { iid := s.iid, type := s.type, name := none,
    characteristics := s.characteristics, linked := [] }

/-- How many identifiers the first pass consumes for a service list. -/
def entityCount : List Service → Int
  | [] => 0
  | s :: rest => 1 + s.characteristics.length + entityCount rest

theorem get?_append_length {α : Type} (l : List α) (x : α) :
    (l ++ [x]).get? l.length = some x := by
  induction l with
  | nil => rfl
  | cons y ys ih => exact ih

theorem add_service_eq (R : Registry) (a : Accessory) (st t : String)
    (h : R.svcResolve st = some t) :
    Accessory.add_service R a st none false
      = .ok ({ a with
          nextId := a.nextId + 1,
          services := a.services ++ [{ iid := a.nextId + 1, type := t, name := none }] },
          a.services.length) := by
  unfold Accessory.add_service
  rw [h]
  rfl

/-- One deserialization step of a serialized service record (first pass):
reading back `toRecord ctx s` appends `stripSvc s` and consumes one
identifier per created entity. -/
theorem buildServices_step (R : Registry) (ctx : List Service) (a : Accessory) (s : Service)
    (rest : List ServiceRecord)
    (hres : R.svcResolve s.type = some s.type)
    (hcres : ∀ c ∈ s.characteristics, R.charResolve c.type = some c.type)
    (hnodup : ((s.characteristics.map (fun c => c.type)).Nodup)) :
    buildServices R a (Service.toRecord ctx s :: rest)
      = buildServices R
          { a with
              nextId := a.nextId + (1 + s.characteristics.length),
              services := a.services ++ [stripSvc s] } rest := by
  have hget : (a.services ++ [({ iid := s.iid, type := s.type, name := none } : Service)]).get?
      a.services.length = some { iid := s.iid, type := s.type, name := none } :=
    get?_append_length _ _
  simp only [buildServices, Service.toRecord, keyGet,
    add_service_eq R a s.type s.type hres, Accessory.setServiceIid, listUpdate_append_cons]
  rw [buildChars_roundtrip R a.services.length s.characteristics
    { a with
        nextId := a.nextId + 1,
        services := a.services ++ [{ iid := s.iid, type := s.type, name := none }] }
    { iid := s.iid, type := s.type, name := none }
    hget hcres (by simp) hnodup]
  cases a with
  | mk aid nid svcs =>
    rw [listUpdate_append_cons]
    simp [stripSvc, add_assoc]

theorem buildServices_roundtrip (R : Registry) (ctx : List Service) :
    ∀ (ss : List Service) (a : Accessory),
      (∀ s ∈ ss, R.svcResolve s.type = some s.type) →
      (∀ s ∈ ss, ∀ c ∈ s.characteristics, R.charResolve c.type = some c.type) →
      (∀ s ∈ ss, ((s.characteristics.map (fun c => c.type)).Nodup)) →
      buildServices R a (ss.map (Service.toRecord ctx))
        = .ok { a with
            nextId := a.nextId + entityCount ss,
            services := a.services ++ ss.map stripSvc } := by
  intro ss
  induction ss with
  | nil =>
    intro a _ _ _
    simp only [List.map_nil, buildServices]
    congr 1
    cases a with
    | mk aid nid svcs => simp [entityCount]
  | cons s rest ih =>
    intro a h1 h2 h3
    simp only [List.map_cons]
    rw [buildServices_step R ctx a s (rest.map (Service.toRecord ctx))
      (h1 s (by simp)) (h2 s (by simp)) (h3 s (by simp))]
    rw [ih _ (fun s' h => h1 s' (by simp [h])) (fun s' h => h2 s' (by simp [h]))
      (fun s' h => h3 s' (by simp [h]))]
    congr 1
    cases a with
    | mk aid nid svcs => simp [entityCount, add_assoc]

theorem firstPass_roundtrip (R : Registry) (a : Accessory)
    (h1 : ∀ s ∈ a.services, R.svcResolve s.type = some s.type)
    (h2 : ∀ s ∈ a.services, ∀ c ∈ s.characteristics, R.charResolve c.type = some c.type)
    (h3 : ∀ s ∈ a.services, ((s.characteristics.map (fun c => c.type)).Nodup)) :
    firstPass R a.to_accessory_and_service_list
      = .ok { aid := a.aid, nextId := entityCount a.services,
              services := a.services.map stripSvc } := by
  unfold firstPass Accessory.to_accessory_and_service_list
  simp only [keyGet]
  rw [buildServices_roundtrip R a.services a.services { aid := a.aid } h1 h2 h3]
  congr 1
  simp

/-- The final reloaded shape of a service: like `stripSvc` but with the
links rebuilt — dangling link indices (with no live target) vanish. -/
def reSvc (len : Nat) (s : Service) : Service :=
  { iid := s.iid, type := s.type, name := none, characteristics := s.characteristics,
    linked := s.linked.filter (fun i => decide (i < len)) }

/-- Repeatedly link service `j` to each target in turn. -/
def addLinks (a : Accessory) (j : Nat) : List Nat → Accessory
  | [] => a
  | i :: rest => addLinks (a.add_linked_service j i) j rest

theorem addLinks_services : ∀ (fl : List Nat) (a : Accessory) (j : Nat),
    (addLinks a j fl).services
      = listUpdate a.services j (fun t => { t with linked := t.linked ++ fl }) := by
  intro fl
  induction fl with
  | nil =>
    intro a j
    have hfun : (fun t : Service => { t with linked := t.linked ++ ([] : List Nat) })
        = fun t => t := by
      funext t
      simp
    rw [hfun, listUpdate_id]
    rfl
  | cons i rest ih =>
    intro a j
    show (addLinks (a.add_linked_service j i) j rest).services = _
    rw [ih]
    rw [show (a.add_linked_service j i).services
        = listUpdate a.services j (fun t => { t with linked := t.linked ++ [i] }) from rfl]
    rw [listUpdate_listUpdate]
    exact congrArg (fun f => listUpdate a.services j f) (funext fun t => by simp)

theorem addLinks_aid : ∀ (fl : List Nat) (a : Accessory) (j : Nat),
    (addLinks a j fl).aid = a.aid := by
  intro fl
  induction fl with
  | nil => intro a j; rfl
  | cons i rest ih => intro a j; exact ih (a.add_linked_service j i) j

theorem addLinks_nextId : ∀ (fl : List Nat) (a : Accessory) (j : Nat),
    (addLinks a j fl).nextId = a.nextId := by
  intro fl
  induction fl with
  | nil => intro a j; rfl
  | cons i rest ih => intro a j; exact ih (a.add_linked_service j i) j

theorem enumFrom_filter_nodup (y : Int) :
    ∀ (ids : List Int) (n j : Nat), ids.Nodup → ids.get? j = some y →
      (((ids.enumFrom n).filter (fun p => p.2 == y)).map (fun p => p.1)) = [n + j] := by
  intro ids
  induction ids with
  | nil => intro n j _ h; cases h
  | cons z rest ih =>
    intro n j hnd h
    cases j with
    | zero =>
      injection h with h
      subst h
      have hz : z ∉ rest := (List.nodup_cons.mp hnd).1
      simp [List.enumFrom, List.filter, enumFrom_filter_not_mem z rest (n + 1) hz]
    | succ m =>
      have hrest : rest.get? m = some y := by simpa using h
      have hy : y ∈ rest := List.get?_mem hrest
      have hz : ¬z = y := fun hE => (List.nodup_cons.mp hnd).1 (hE ▸ hy)
      have hzb : (z == y) = false := by simpa using hz
      have harith : n + 1 + m = n + (m + 1) := by omega
      simp [List.enumFrom, List.filter, hzb,
        ih (n + 1) m (List.nodup_cons.mp hnd).2 hrest, harith]

theorem idsIdx_at (ids : List Int) (j : Nat) (y : Int) (hnd : ids.Nodup)
    (h : ids.get? j = some y) : idsIdx ids y = .ok j := by
  unfold idsIdx
  rw [show ids.enum = ids.enumFrom 0 from rfl, enumFrom_filter_nodup y ids 0 j hnd h]
  simp [pyNext]

theorem linkLoop_emitted (ctx : List Service)
    (hnd : ((ctx.map (fun t => t.iid)).Nodup)) :
    ∀ (lnk : List Nat) (A : Accessory) (j : Nat) (y : Int),
      A.services.map (fun t => t.iid) = ctx.map (fun t => t.iid) →
      (ctx.map (fun t => t.iid)).get? j = some y →
      linkLoop A (some y) (lnk.filterMap (fun i => (ctx.get? i).map (fun t => t.iid)))
        = .ok (addLinks A j (lnk.filter (fun i => decide (i < ctx.length)))) := by
  intro lnk
  induction lnk with
  | nil => intro A j y _ _; rfl
  | cons i rest ih =>
    intro A j y hmap hyj
    cases hi : ctx.get? i with
    | none =>
      have hlen : ¬i < ctx.length := by
        have := List.get?_eq_none.mp hi
        omega
      have hi' : ctx[i]? = none := by
        rw [← List.get?_eq_getElem?]
        exact hi
      have hfc : (i :: rest).filter (fun i => decide (i < ctx.length))
          = rest.filter (fun i => decide (i < ctx.length)) := by
        simp [List.filter_cons, hlen]
      rw [show (i :: rest).filterMap (fun i => (ctx.get? i).map (fun t => t.iid))
          = rest.filterMap (fun i => (ctx.get? i).map (fun t => t.iid)) from by
        simp [List.filterMap_cons, hi']]
      rw [hfc]
      exact ih A j y hmap hyj
    | some si_ =>
      have hyA : Services.iidIdx A.services y = .ok j := by
        rw [iidIdx_eq_idsIdx, hmap]
        exact idsIdx_at _ j y hnd hyj
      have hxA : Services.iidIdx A.services si_.iid = .ok i := by
        rw [iidIdx_eq_idsIdx, hmap]
        refine idsIdx_at _ i si_.iid hnd ?_
        rw [List.get?_map, hi]
        rfl
      have hlen : i < ctx.length := by
        rcases List.get?_eq_some.mp hi with ⟨hl, _⟩
        exact hl
      have hi' : ctx[i]? = some si_ := by
        rw [← List.get?_eq_getElem?]
        exact hi
      rw [show (i :: rest).filterMap (fun i => (ctx.get? i).map (fun t => t.iid))
          = si_.iid :: rest.filterMap (fun i => (ctx.get? i).map (fun t => t.iid)) from by
        simp [List.filterMap_cons, hi']]
      simp only [linkLoop, keyGet, hyA, hxA]
      rw [ih (A.add_linked_service j i) j y
        (by rw [add_linked_service_iids]; exact hmap) hyj]
      rw [show (i :: rest).filter (fun i => decide (i < ctx.length))
          = i :: rest.filter (fun i => decide (i < ctx.length)) from by
        simp [List.filter_cons, hlen]]
      rfl

theorem linkPass_roundtrip (ctx : List Service)
    (hnd : ((ctx.map (fun t => t.iid)).Nodup)) :
    ∀ (d : List Service) (k : Nat) (A : Accessory),
      ctx.drop k = d →
      A.services = (ctx.take k).map (reSvc ctx.length) ++ d.map stripSvc →
      linkPass A (d.map (Service.toRecord ctx))
        = .ok { A with services := ctx.map (reSvc ctx.length) } := by
  intro d
  induction d with
  | nil =>
    intro k A hdrop hsvc
    have htake : ctx.take k = ctx := List.take_all_of_le (List.drop_eq_nil_iff_le.mp hdrop)
    cases A with
    | mk aid nid svcs =>
      simp only [List.map_nil, List.append_nil] at hsvc
      simp only [List.map_nil, linkPass]
      congr 1
      simp [Accessory.mk.injEq, hsvc, htake]
  | cons sj d' ih =>
    intro k A hdrop hsvc
    have hget : ctx.get? k = some sj := by
      have hnth := List.get?_drop ctx k 0
      rw [hdrop] at hnth
      simpa using hnth.symm
    have hdrop' : ctx.drop (k + 1) = d' := by
      have htl : (ctx.drop k).tail = ctx.drop (k + 1) := List.tail_drop ctx k
      rw [← htl, hdrop]
      rfl
    have hk : k < ctx.length := by
      rcases List.get?_eq_some.mp hget with ⟨h, _⟩
      exact h
    have hlen_take : ((ctx.take k).map (reSvc ctx.length)).length = k := by
      simp [List.length_take]
      omega
    have hmap : A.services.map (fun t => t.iid) = ctx.map (fun t => t.iid) := by
      rw [hsvc, List.map_append, List.map_map, List.map_map]
      rw [show ((fun t : Service => t.iid) ∘ reSvc ctx.length) = fun t : Service => t.iid
          from rfl,
        show ((fun t : Service => t.iid) ∘ stripSvc) = fun t : Service => t.iid from rfl]
      rw [← List.map_append, ← hdrop, List.take_append_drop]
    have hyj : (ctx.map (fun t => t.iid)).get? k = some sj.iid := by
      rw [List.get?_map, hget]
      rfl
    have hA' : (addLinks A k (sj.linked.filter (fun i => decide (i < ctx.length)))).services
        = (ctx.take (k + 1)).map (reSvc ctx.length) ++ d'.map stripSvc := by
      rw [addLinks_services, hsvc]
      have hupd := listUpdate_append_cons ((ctx.take k).map (reSvc ctx.length)) (stripSvc sj)
        (d'.map stripSvc)
        (fun t => { t with linked := t.linked
          ++ sj.linked.filter (fun i => decide (i < ctx.length)) })
      rw [hlen_take] at hupd
      rw [List.map_cons, hupd]
      have hget' : ctx[k]? = some sj := by
        rw [← List.get?_eq_getElem?]
        exact hget
      rw [List.take_succ, hget']
      simp [reSvc, stripSvc]
    simp only [List.map_cons, linkPass, Service.toRecord, Option.getD_some,
      linkLoop_emitted ctx hnd sj.linked A k sj.iid hmap hyj]
    rw [ih (k + 1) (addLinks A k (sj.linked.filter (fun i => decide (i < ctx.length))))
      hdrop' hA']
    congr 1
    cases A with
    | mk aid nid svcs =>
      simp [Accessory.mk.injEq, addLinks_aid, addLinks_nextId]

theorem create_from_dict_roundtrip (R : Registry) (a : Accessory)
    (hnd : ((a.services.map (fun t => t.iid)).Nodup))
    (h1 : ∀ s ∈ a.services, R.svcResolve s.type = some s.type)
    (h2 : ∀ s ∈ a.services, ∀ c ∈ s.characteristics, R.charResolve c.type = some c.type)
    (h3 : ∀ s ∈ a.services, ((s.characteristics.map (fun c => c.type)).Nodup)) :
    Accessory.create_from_dict R a.to_accessory_and_service_list
      = .ok { aid := a.aid, nextId := entityCount a.services,
              services := a.services.map (reSvc a.services.length) } := by
  unfold Accessory.create_from_dict
  rw [firstPass_roundtrip R a h1 h2 h3]
  have hlp := linkPass_roundtrip a.services hnd a.services 0
    { aid := a.aid, nextId := entityCount a.services, services := a.services.map stripSvc }
    rfl (by simp)
  simp only [Accessory.to_accessory_and_service_list, keyGet, hlp]

theorem filterMap_filter_eq {β : Type} (p : Nat → Bool) (f g : Nat → Option β)
    (hfg : ∀ i, p i = true → f i = g i) (hnone : ∀ i, p i = false → g i = none) :
    ∀ lnk : List Nat, (lnk.filter p).filterMap f = lnk.filterMap g := by
  intro lnk
  induction lnk with
  | nil => rfl
  | cons i rest ih =>
    cases hp : p i with
    | true =>
      rw [show (i :: rest).filter p = i :: rest.filter p from by simp [List.filter_cons, hp]]
      rw [List.filterMap_cons, List.filterMap_cons, hfg i hp, ih]
    | false =>
      rw [show (i :: rest).filter p = rest.filter p from by simp [List.filter_cons, hp]]
      rw [ih, List.filterMap_cons, hnone i hp]

theorem linked_record_eq (ctx : List Service) (lnk : List Nat) :
    ((lnk.filter (fun i => decide (i < ctx.length))).filterMap
        (fun i => ((ctx.map (reSvc ctx.length)).get? i).map (fun t => t.iid)))
      = lnk.filterMap (fun i => (ctx.get? i).map (fun t => t.iid)) := by
  refine filterMap_filter_eq _ _ _ ?_ ?_ lnk
  · intro i _
    rw [List.get?_map]
    cases ctx.get? i with
    | none => rfl
    | some t => rfl
  · intro i hp
    have hi : ¬i < ctx.length := by simpa using hp
    rw [List.get?_eq_none.mpr (by omega)]
    rfl

theorem reload_serializes_same (a : Accessory) (k : Int) :
    (Accessory.to_accessory_and_service_list
        { aid := a.aid, nextId := k, services := a.services.map (reSvc a.services.length) })
      = a.to_accessory_and_service_list := by
  have hpt : ∀ s : Service,
      Service.toRecord (a.services.map (reSvc a.services.length)) (reSvc a.services.length s)
        = Service.toRecord a.services s := by
    intro s
    unfold Service.toRecord reSvc
    simp only [ServiceRecord.mk.injEq]
    refine ⟨trivial, trivial, trivial, ?_⟩
    exact congrArg some (linked_record_eq a.services s.linked)
  unfold Accessory.to_accessory_and_service_list
  simp only [AccessoryRecord.mk.injEq]
  refine ⟨trivial, ?_⟩
  rw [List.map_map]
  exact congrArg some
    (congrArg (fun f => List.map f a.services) (funext fun s => hpt s))

/-- A canonical accessory for the round-trip: service identifiers are
pairwise distinct, stored service/characteristic types resolve to
themselves (they are canonical uuids), and no service owns two
characteristics of one type. -/
def Accessory.Canonical (R : Registry) (a : Accessory) : Prop :=
  ((a.services.map (fun t => t.iid)).Nodup)
    ∧ (∀ s ∈ a.services, R.svcResolve s.type = some s.type)
    ∧ (∀ s ∈ a.services, ∀ c ∈ s.characteristics, R.charResolve c.type = some c.type)
    ∧ (∀ s ∈ a.services, ((s.characteristics.map (fun c => c.type)).Nodup))

/-- C1 (amended): for every Accessories collection whose accessories are
canonical — pairwise-distinct service iids, canonical stored types, at
most one characteristic per type per service — deserializing the output
of `serialize` via `from_list` succeeds and yields a collection whose own
re-serialization is structurally identical to the original
serialization: same accessory order and aids, same services in order with
the same iids and types, same characteristics with the same optional
fields present, and the same linked lists. -/
theorem serialize_roundtrip (R : Registry) (C : List Accessory)
    (h : ∀ a ∈ C, Accessory.Canonical R a) :
    ∃ C', Accessories.from_list R (Accessories.serialize C) = .ok C'
      ∧ Accessories.serialize C' = Accessories.serialize C := by
  induction C with
  | nil => exact ⟨[], rfl, rfl⟩
  | cons a rest ih =>
    rcases ih (fun a' h' => h a' (by simp [h'])) with ⟨C', hC', hser⟩
    rcases h a (by simp) with ⟨hnd, h1, h2, h3⟩
    refine ⟨{ aid := a.aid,
              nextId := entityCount a.services,
              services := a.services.map (reSvc a.services.length) } :: C', ?_, ?_⟩
    · simp only [Accessories.serialize, List.map_cons, Accessories.from_list,
        create_from_dict_roundtrip R a hnd h1 h2 h3]
      simp only [Accessories.serialize] at hC'
      rw [hC']
    · simp only [Accessories.serialize, List.map_cons, reload_serializes_same]
      simp only [Accessories.serialize] at hser
      rw [hser]

/-- Witness for C1's theorem: the concrete two-accessory collection
`Cgood` (characteristics with optional fields, links both ways, a display
name that is not serialized) round-trips. -/
theorem serialize_roundtrip_witness :
    ∃ C', Accessories.from_list R0 (Accessories.serialize Cgood) = .ok C'
      ∧ Accessories.serialize C' = Accessories.serialize Cgood :=
  serialize_roundtrip R0 Cgood (by simp only [Accessory.Canonical]; decide)

/-- Counterexample to C1 as stated: `Cbad`'s accessory has two services
sharing stored identifier 7, the second linking the first.  Deserializing
its serialization succeeds, but the link pass resolves the serialized
link (iid 7) to the *first* service carrying that identifier, so the
reloaded collection re-serializes with the link attached to the wrong
service — not structurally identical to the original serialization. -/
theorem roundtrip_fails_on_duplicate_iids :
    (Accessories.from_list R0 (Accessories.serialize Cbad)).map Accessories.serialize
        ≠ .ok (Accessories.serialize Cbad)
      ∧ ∃ C', Accessories.from_list R0 (Accessories.serialize Cbad) = .ok C' := by
  constructor
  · decide
  · exact ⟨[{ aid := 1,
              nextId := 2,
              services := [{ iid := 7, type := "T", linked := [0] },
                           { iid := 7, type := "T" }] }],
      by decide⟩
